import Mathlib

/-!
The class `MapserverError` of `src/error.cpp`: capture of the mapserver error queue and its
export as a V8 exception.

The development embeds the four functions of `error.cpp`:

* `MapserverError::Init`            (lines 59-69)
* `MapserverError::MapserverError`  (lines 77-93, the copying constructor)
* `MapserverError::toV8Error`       (lines 100-118)
* `MapserverError::ToV8Error`       (lines 127-140)

Objects of class `MapserverError` live in an explicit heap (a list of objects, an address is an
index, `NULL` is `none`), so that the pointer manipulation of the constructor and the pointer
chasing of `toV8Error` are kept as they are written.  `unsigned int` values are natural numbers
reduced modulo `2^32` at every arithmetic operation.  A call that does not return a value, because
the process dies on an empty handle or on a pointer that designates no object, or because a walk
never ends, has the result `none`.
-/

/-! ## The foreign queue -/

/-- Modelled from the spec: the declaration of `errorObj` is in the headers of mapserver, not
under `src/`; the input contract gives a node an integer `code`, texts `routine` and `message`,
a boolean `isreported` and a link to the next node or the end of the sequence.  The link is the
tail of the list that holds the node: a queue is a `List errorObj`, the null pointer is `[]`,
`error->next` is the tail. -/
structure errorObj where
  code : Int
  routine : String
  message : String
  isreported : Bool
deriving DecidableEq, Repr

/-! ## Machine integers -/

/-- Number of values of an `unsigned int`, the type of the index `i` in `toV8Error` and of the
member `length`: `2^32`. -/
def UINT_RANGE : Nat := 4294967296

/-- The expression `x++` / `x + 1` on an `unsigned int`. -/
def uintIncr (x : Nat) : Nat := (x + 1) % UINT_RANGE

/-- The expression `x - 1` on an `unsigned int`: it wraps to `UINT_RANGE - 1` at `x = 0`. -/
def uintDecr (x : Nat) : Nat := (x + UINT_RANGE - 1) % UINT_RANGE

/-- Number of non-negative values of an `int`: `2^31`. -/
def INT_RANGE : Nat := 2147483648

/-- The conversion of an `unsigned int` to `int`, made where an `unsigned int` is passed to a
parameter of type `int`: a value above `INT_MAX` comes out negative (two's complement). -/
def uintToInt (x : Nat) : Int :=
  if x < INT_RANGE then (x : Int) else (x : Int) - (UINT_RANGE : Int)

/-! ## The class `MapserverError` and the heap -/

/-- Modelled from the spec: the class declaration is in `error.hpp`, which is not under `src/`;
the members are the six that `error.cpp` reads and writes, with the types of the data model
(`code` integer, `routine` and `message` text, `isReported` boolean) and `length` of the unsigned
size type the sizing rule speaks of, taken as `unsigned int`.  `next` is a pointer: `none` is
`NULL`, `some a` is the address `a` in the heap. -/
structure MapserverError where
  code : Int
  routine : String
  message : String
  isReported : Bool
  next : Option Nat
  length : Nat
deriving DecidableEq, Repr

/-- The heap of `MapserverError` objects: the object at address `a` is the `a`-th element. -/
abbrev Heap := List MapserverError

/-- Dereference of a pointer: `none` when the address is not that of an object. -/
def Heap.read : Heap → Nat → Option MapserverError
  | [], _ => none
  | o :: _, 0 => some o
  | _ :: h, a + 1 => Heap.read h a

/-- Assignment to members of the object at address `a` (`f` gives the new state of the object). -/
def Heap.update : Heap → Nat → (MapserverError → MapserverError) → Heap
  | [], _, _ => []
  | o :: h, 0, f => f o :: h
  | o :: h, a + 1, f => o :: Heap.update h a f

/-- The expression `new MapserverError()`: the new object, in the state `dflt` in which the default
constructor leaves it, is placed at the first free address, which is returned with the heap. -/
def Heap.alloc (h : Heap) (dflt : MapserverError) : Heap × Nat := (h ++ [dflt], h.length)

/-! ## V8 values -/

/-- The JavaScript values built by `error.cpp`.  `empty` is the empty handle; `undefined` is the
content of an array slot that was never written; `error props` is an `Error` object with the
properties that were set on it, in the order of the `Set` calls, each under the key that was
passed. -/
inductive V8Value where
  | empty
  | undefined
  | string (s : String)
  | integer (n : Int)
  | boolean (b : Bool)
  | array (elems : List V8Value)
  | error (props : List (Option String × V8Value))

/-- A `Persistent<String>` read as a value handle. -/
def V8Value.ofSymbol : Option String → V8Value
  | none => V8Value.empty
  | some s => V8Value.string s

/-- The call `Exception::Error(message)`: a fresh `Error` object whose `message` is the argument. -/
def Exception.Error (message : V8Value) : V8Value :=
  V8Value.error [(some "message", message)]

/-- The call `object->Set(key, value)`, `key` being a `Persistent<String>` (`none` is the empty
handle).  With an empty handle as the key or as the value, V8 dereferences it and the process
dies: the call returns nothing.  Otherwise the property is added to the object. -/
def V8Value.Set (object : V8Value) (key : Option String) (value : V8Value) : Option V8Value :=
  match key, value, object with
  | none, _, _ => none
  | some _, V8Value.empty, _ => none
  | some k, v, V8Value.error props => some (V8Value.error (props ++ [(some k, v)]))
  | some _, _, other => some other

/-- Property read `object[key]`: the value of the most recent `Set` under that key. -/
def V8Value.Get (object : V8Value) (key : String) : Option V8Value :=
  match object with
  | V8Value.error props => (props.reverse.find? (fun p => decide (p.1 = some key))).map Prod.snd
  | _ => none

/-- Whether a value is an `Error` object. -/
def V8Value.isError : V8Value → Bool
  | V8Value.error _ => true
  | _ => false

/-- The call `Array::New(int length)`: an array of `length` unwritten slots, none when `length`
is negative. -/
def Array.New (length : Int) : List V8Value := List.replicate length.toNat V8Value.undefined

/-- The call `array->Set(index, value)` for a `uint32_t` index: the slot is overwritten when it
exists, otherwise the array grows up to that index. -/
def Array.Set (array : List V8Value) (index : Nat) (value : V8Value) : List V8Value :=
  if index < array.length then array.set index value
  else array ++ List.replicate (index - array.length) V8Value.undefined ++ [value]

/-! ## The symbol registry (static members) and `Init` -/

/-- The seven static `Persistent<String>` members of the class (`none` is the empty handle they
hold before any assignment), with the number of persistent handles created so far by
`NODE_PSYMBOL`. -/
structure Registry where
  MapserverError_symbol : Option String
  name_symbol : Option String
  code_symbol : Option String
  category_symbol : Option String
  routine_symbol : Option String
  isReported_symbol : Option String
  errorStack_symbol : Option String
  persistentHandles : Nat
deriving DecidableEq, Repr

/-- The registry at program start: the static members are empty handles. -/
def Registry.start : Registry :=
  { MapserverError_symbol := none, name_symbol := none, code_symbol := none,
    category_symbol := none, routine_symbol := none, isReported_symbol := none,
    errorStack_symbol := none, persistentHandles := 0 }

/-- The expression `NODE_PSYMBOL(s)` of node: a new persistent handle to the symbol `s`; the
count of persistent handles grows by one. -/
def NODE_PSYMBOL (s : String) (handles : Nat) : Option String × Nat := (some s, handles + 1)

/-- `MapserverError::Init` (error.cpp:59-69): seven assignments, one new persistent handle each. -/
def MapserverError.Init (reg : Registry) : Registry :=
  let n := reg.persistentHandles
  let (sMapserverError, n) := NODE_PSYMBOL "MapserverError" n
  let (sName, n) := NODE_PSYMBOL "name" n
  let (sCode, n) := NODE_PSYMBOL "code" n
  let (sCategory, n) := NODE_PSYMBOL "category" n
  let (sRoutine, n) := NODE_PSYMBOL "routine" n
  let (sIsReported, n) := NODE_PSYMBOL "isReported" n
  let (sErrorStack, n) := NODE_PSYMBOL "errorStack" n
  { MapserverError_symbol := sMapserverError, name_symbol := sName, code_symbol := sCode,
    category_symbol := sCategory, routine_symbol := sRoutine, isReported_symbol := sIsReported,
    errorStack_symbol := sErrorStack, persistentHandles := n }

/-! ## The copying constructor -/

/-- The four assignments `copy->code = error->code; ... copy->isReported = error->isreported`. -/
def MapserverError.copyFields (e : errorObj) (o : MapserverError) : MapserverError :=
  { o with code := e.code, routine := e.routine, message := e.message, isReported := e.isreported }

/-- The loop `while (error) { ... }` of the constructor (error.cpp:80-91).  The state is the heap
and the pointer `copy`; `this` is the address `0`.  `dflt` is the state of an object made by the
default constructor of `error.hpp`. -/
def MapserverError.copyLoop (dflt : MapserverError) : List errorObj → Heap → Nat → Heap × Nat
  | [], h, copy => (h, copy)
  | e :: rest, h, copy =>
    let h := h.update copy (MapserverError.copyFields e)
    let (h, copy) :=
      match rest with
      | [] => (h, copy)
      | _ :: _ =>
        let (h, fresh) := h.alloc dflt
        (h.update copy (fun o => { o with next := some fresh }), fresh)
    let h := h.update 0 (fun o => { o with length := uintIncr o.length })
    MapserverError.copyLoop dflt rest h copy

/-- The constructor `MapserverError::MapserverError(const errorObj *error)` (error.cpp:77-93; the
class name cannot be reused for it here).  `raw` is the state
of the object `this` when the body is entered (no member has been assigned by the constructor
yet); the object is at address `0` of the heap that is returned. -/
def MapserverError.construct (raw dflt : MapserverError) (error : List errorObj) : Heap :=
  let h : Heap := [raw]
  let h := h.update 0 (fun o => { o with length := 0 })
  let (h, copy) := MapserverError.copyLoop dflt error h 0
  h.update copy (fun o => { o with next := none })

/-! ## The converters -/

/-- `MapserverError::ToV8Error(MapserverError *error)` (error.cpp:127-140), applied to the object
the pointer designates.  `msGetErrorCodeString` is the category lookup of mapserver.  The five
`Set` calls are made in the order of the source; the first one that is given an empty handle
ends the process. -/
def MapserverError.ToV8Error (msGetErrorCodeString : Int → String) (reg : Registry)
    (error : MapserverError) : Option V8Value :=
  let category := msGetErrorCodeString error.code
  let result := Exception.Error
    (V8Value.string (if error.message.length ≠ 0 then error.message else category))
  let object := result
  match object.Set reg.name_symbol (V8Value.ofSymbol reg.MapserverError_symbol) with
  | none => none
  | some object =>
    match object.Set reg.routine_symbol (V8Value.string error.routine) with
    | none => none
    | some object =>
      match object.Set reg.code_symbol (V8Value.integer error.code) with
      | none => none
      | some object =>
        match object.Set reg.category_symbol (V8Value.string category) with
        | none => none
        | some object => object.Set reg.isReported_symbol (V8Value.boolean error.isReported)

/-- The loop `while (error) { ... }` of `toV8Error` (error.cpp:107-111).  The state is the pointer
`error`, the index `i` and the array.  `fuel` bounds the number of iterations; `none` is returned
when it runs out, when `error` is not the address of an object, or when `ToV8Error` does not
return. -/
def MapserverError.stackLoop (msGetErrorCodeString : Int → String) (reg : Registry) (h : Heap) :
    Nat → Option Nat → Nat → List V8Value → Option (List V8Value)
  | _, none, _, errorStack => some errorStack
  | 0, some _, _, _ => none
  | fuel + 1, some a, i, errorStack =>
    match h.read a with
    | none => none
    | some node =>
      match MapserverError.ToV8Error msGetErrorCodeString reg node with
      | none => none
      | some exception =>
        let errorStack := Array.Set errorStack i exception
        MapserverError.stackLoop msGetErrorCodeString reg h fuel node.next (uintIncr i) errorStack

/-- `MapserverError::toV8Error()` (error.cpp:100-118) on the object at address `0` of the heap.
The loop is given as many iterations as the heap has objects: a walk that visits more nodes than
that visits one twice and never ends.  `none` stands for such a walk, for one through a pointer
that is not the address of an object, or for a `Set` call that is given an empty handle.  The
`unsigned int` value of `length-1` is converted to the `int` that `Array::New` takes. -/
def MapserverError.toV8Error (msGetErrorCodeString : Int → String) (reg : Registry) (h : Heap) :
    Option V8Value :=
  match h.read 0 with
  | none => none
  | some self =>
    let errorStack := Array.New (uintToInt (uintDecr self.length))
    match MapserverError.stackLoop msGetErrorCodeString reg h h.length self.next 0 errorStack with
    | none => none
    | some errorStack =>
      match MapserverError.ToV8Error msGetErrorCodeString reg self with
      | none => none
      | some result => result.Set reg.errorStack_symbol (V8Value.array errorStack)

/-! ## Observations used to state the properties -/

/-- The object reached from the pointer `p` after following `k` `next` links. -/
def MapserverError.nthNode (h : Heap) : Nat → Option Nat → Option MapserverError
  | _, none => none
  | 0, some a => h.read a
  | k + 1, some a =>
    match h.read a with
    | none => none
    | some o => MapserverError.nthNode h k o.next

/-- The object in which the fields of a foreign record are held, with given `next` and `length`. -/
def MapserverError.ofRecord (e : errorObj) (next : Option Nat) (length : Nat) : MapserverError :=
  { code := e.code, routine := e.routine, message := e.message, isReported := e.isreported,
    next := next, length := length }

/-- A category lookup for the examples. -/
def categoryFor (code : Int) : String :=
  if code = 1 then "Unable to access file." else if code = 2 then "Memory allocation error."
  else "Invalid error code."

/-- The first record of the scenario queue. -/
def scenarioFirst : errorObj :=
  { code := 1, routine := "loadMap", message := "file not found", isreported := true }

/-- The second record of the scenario queue. -/
def scenarioSecond : errorObj :=
  { code := 2, routine := "parse", message := "", isreported := false }

/-- The two-record queue of the scenario. -/
def scenarioQueue : List errorObj := [scenarioFirst, scenarioSecond]

/-- An object whose scalar members hold arbitrary sample values. -/
def sampleObject : MapserverError :=
  { code := 7, routine := "", message := "", isReported := false, next := none, length := 0 }

/-- The objects that the constructor leaves for the records `e :: rest`, when the first of them
is written into an object in state `c` at address `base` and the others into new objects: each
object points to the next address, the last one to `NULL`. -/
def MapserverError.chainFrom (dflt : MapserverError) :
    MapserverError → Nat → errorObj → List errorObj → List MapserverError
  | c, _, e, [] => [{ MapserverError.copyFields e c with next := none }]
  | c, base, e, e2 :: rest =>
    { MapserverError.copyFields e c with next := some (base + 1) } ::
      MapserverError.chainFrom dflt dflt (base + 1) e2 rest

/-- The objects of the loop of the constructor after the records `e :: rest`, before the final
`copy->next = NULL`: as `chainFrom`, the last object keeping the `next` it had. -/
def MapserverError.pendingFrom (dflt : MapserverError) :
    MapserverError → Nat → errorObj → List errorObj → List MapserverError
  | c, _, e, [] => [MapserverError.copyFields e c]
  | c, base, e, e2 :: rest =>
    { MapserverError.copyFields e c with next := some (base + 1) } ::
      MapserverError.pendingFrom dflt dflt (base + 1) e2 rest

/-- The effect of `k` executions of `length++` on the object at address `0`. -/
def Heap.bump (k : Nat) (h : Heap) : Heap :=
  h.update 0 (fun o => { o with length := (o.length + k) % UINT_RANGE })

/-! ## The converters with the store threaded through -/

/-- The memory the component can reach: the queue of the foreign library, the static members of
the class, and the heap of `MapserverError` objects. -/
structure World where
  foreign : List errorObj
  registry : Registry
  heap : Heap
deriving DecidableEq, Repr

/-- `MapserverError::ToV8Error(MapserverError *error)` as a call on the world: the pointer is
dereferenced, the statics are read, and the world is handed back with the value.  The body
assigns to the new V8 object only. -/
def MapserverError.ToV8ErrorW (msGetErrorCodeString : Int → String) (error : Nat) (w : World) :
    Option (V8Value × World) :=
  match w.heap.read error with
  | none => none
  | some object =>
    match MapserverError.ToV8Error msGetErrorCodeString w.registry object with
    | none => none
    | some exception => some (exception, w)

/-- The loop of `toV8Error` (error.cpp:107-111) as a run on the world: every iteration calls
`ToV8Error(error)`, writes the array and reads `error->next`. -/
def MapserverError.stackLoopW (msGetErrorCodeString : Int → String) :
    Nat → Option Nat → Nat → List V8Value → World → Option (List V8Value × World)
  | _, none, _, errorStack, w => some (errorStack, w)
  | 0, some _, _, _, _ => none
  | fuel + 1, some a, i, errorStack, w =>
    match MapserverError.ToV8ErrorW msGetErrorCodeString a w with
    | none => none
    | some (exception, w) =>
      let errorStack := Array.Set errorStack i exception
      match w.heap.read a with
      | none => none
      | some node =>
        MapserverError.stackLoopW msGetErrorCodeString fuel node.next (uintIncr i) errorStack w

/-- `MapserverError::toV8Error()` (error.cpp:100-118) as a call on the world, for the object at
address `0`: the value returned and the world the call leaves. -/
def MapserverError.toV8ErrorW (msGetErrorCodeString : Int → String) (w : World) :
    Option (V8Value × World) :=
  match w.heap.read 0 with
  | none => none
  | some self =>
    let errorStack := Array.New (uintToInt (uintDecr self.length))
    match MapserverError.stackLoopW msGetErrorCodeString w.heap.length self.next 0 errorStack
        w with
    | none => none
    | some (errorStack, w) =>
      match MapserverError.ToV8ErrorW msGetErrorCodeString 0 w with
      | none => none
      | some (result, w) =>
        match result.Set w.registry.errorStack_symbol (V8Value.array errorStack) with
        | none => none
        | some result => some (result, w)

/-- The constructor call `MapserverError(error)` as a step of the world, `error` being the head
of the foreign queue: the records are read, the objects are written. -/
def World.capture (raw dflt : MapserverError) (w : World) : World :=
  { w with heap := MapserverError.construct raw dflt w.foreign }

/-- Assignment to members of the `k`-th node of the foreign queue. -/
def errorObj.updateAt : List errorObj → Nat → (errorObj → errorObj) → List errorObj
  | [], _, _ => []
  | e :: q, 0, f => f e :: q
  | e :: q, k + 1, f => e :: errorObj.updateAt q k f

/-- The changes the foreign library can make to a node of its queue: a new `code`, `routine`,
`message` or `isreported` for the `k`-th node, or a new `next` link, after which the queue
continues with the nodes `tail`. -/
inductive ForeignChange where
  | setCode (k : Nat) (code : Int)
  | setRoutine (k : Nat) (routine : String)
  | setMessage (k : Nat) (message : String)
  | setIsreported (k : Nat) (isreported : Bool)
  | setNext (k : Nat) (tail : List errorObj)

/-- The queue after a change. -/
def ForeignChange.apply : ForeignChange → List errorObj → List errorObj
  | ForeignChange.setCode k code, q => errorObj.updateAt q k (fun e => { e with code := code })
  | ForeignChange.setRoutine k routine, q =>
    errorObj.updateAt q k (fun e => { e with routine := routine })
  | ForeignChange.setMessage k message, q =>
    errorObj.updateAt q k (fun e => { e with message := message })
  | ForeignChange.setIsreported k isreported, q =>
    errorObj.updateAt q k (fun e => { e with isreported := isreported })
  | ForeignChange.setNext k tail, q => if k < q.length then q.take (k + 1) ++ tail else q

/-- A step of the foreign library: it changes its queue and nothing else. -/
def World.foreignStep (change : ForeignChange) (w : World) : World :=
  { w with foreign := change.apply w.foreign }

/-! ## Further observations -/

/-- The object without its property `key` (`delete object[key]`). -/
def V8Value.Delete (object : V8Value) (key : String) : V8Value :=
  match object with
  | V8Value.error props => V8Value.error (props.filter (fun p => !decide (p.1 = some key)))
  | other => other

/-- The loop of `toV8Error` once more, returning instead of the array the calls
`errorStack->Set(i++, exception)` it makes, in order: the index and the value of each. -/
def MapserverError.stackWrites (msGetErrorCodeString : Int → String) (reg : Registry)
    (h : Heap) : Nat → Option Nat → Nat → Option (List (Nat × V8Value))
  | _, none, _ => some []
  | 0, some _, _ => none
  | fuel + 1, some a, i =>
    match h.read a with
    | none => none
    | some node =>
      match MapserverError.ToV8Error msGetErrorCodeString reg node with
      | none => none
      | some exception =>
        match MapserverError.stackWrites msGetErrorCodeString reg h fuel node.next
            (uintIncr i) with
        | none => none
        | some writes => some ((i, exception) :: writes)

/-- The size of the array that `toV8Error` allocates, which is the length of
`Array::New(length-1)`, and the writes of its loop. -/
def MapserverError.toV8ErrorWrites (msGetErrorCodeString : Int → String) (reg : Registry)
    (h : Heap) : Option (Nat × List (Nat × V8Value)) :=
  match h.read 0 with
  | none => none
  | some self =>
    match MapserverError.stackWrites msGetErrorCodeString reg h h.length self.next 0 with
    | none => none
    | some writes => some ((Array.New (uintToInt (uintDecr self.length))).length, writes)

/-- The value that `ToV8Error` returns for an object once `Init` has run: the `Error` made from
the message, with the five properties set under the names that `Init` assigns. -/
def MapserverError.converted (msGetErrorCodeString : Int → String) (error : MapserverError) :
    V8Value :=
  V8Value.error
    [ (some "message", V8Value.string
        (if error.message.length ≠ 0 then error.message
         else msGetErrorCodeString error.code)),
      (some "name", V8Value.string "MapserverError"),
      (some "routine", V8Value.string error.routine),
      (some "code", V8Value.integer error.code),
      (some "category", V8Value.string (msGetErrorCodeString error.code)),
      (some "isReported", V8Value.boolean error.isReported) ]

/-- The value that `toV8Error` returns once `Init` has run, for a primary object and an error
stack: the converted primary with the property `errorStack` added. -/
def MapserverError.exported (msGetErrorCodeString : Int → String) (primary : MapserverError)
    (stack : List V8Value) : V8Value :=
  V8Value.error
    [ (some "message", V8Value.string
        (if primary.message.length ≠ 0 then primary.message
         else msGetErrorCodeString primary.code)),
      (some "name", V8Value.string "MapserverError"),
      (some "routine", V8Value.string primary.routine),
      (some "code", V8Value.integer primary.code),
      (some "category", V8Value.string (msGetErrorCodeString primary.code)),
      (some "isReported", V8Value.boolean primary.isReported),
      (some "errorStack", V8Value.array stack) ]

/-- Whether the six handles that `ToV8Error` passes to `Set` are non-empty. -/
def Registry.converterReady (reg : Registry) : Prop :=
  reg.MapserverError_symbol ≠ none ∧ reg.name_symbol ≠ none ∧ reg.routine_symbol ≠ none ∧
  reg.code_symbol ≠ none ∧ reg.category_symbol ≠ none ∧ reg.isReported_symbol ≠ none

/-! ## Heap lemmas -/

theorem Heap.length_update (h : Heap) (a : Nat) (f : MapserverError → MapserverError) :
    (h.update a f).length = h.length := by
  induction h generalizing a with
  | nil => rfl
  | cons o h ih => cases a <;> simp [Heap.update, ih]

theorem Heap.read_append_length (front : Heap) (o : MapserverError) (back : Heap) :
    Heap.read (front ++ o :: back) front.length = some o := by
  induction front with
  | nil => rfl
  | cons x front ih => simpa [Heap.read] using ih

theorem Heap.update_append_length (front : Heap) (o : MapserverError) (back : Heap)
    (f : MapserverError → MapserverError) :
    Heap.update (front ++ o :: back) front.length f = front ++ f o :: back := by
  induction front with
  | nil => rfl
  | cons x front ih => simpa [Heap.update] using ih

theorem Heap.update_update (h : Heap) (a : Nat) (f g : MapserverError → MapserverError) :
    (h.update a f).update a g = h.update a (fun o => g (f o)) := by
  induction h generalizing a with
  | nil => rfl
  | cons o h ih => cases a <;> simp [Heap.update, ih]

theorem Heap.update_comm (h : Heap) (a b : Nat) (f g : MapserverError → MapserverError)
    (hfg : ∀ o, f (g o) = g (f o)) :
    (h.update b g).update a f = (h.update a f).update b g := by
  induction h generalizing a b with
  | nil => rfl
  | cons o h ih => cases a <;> cases b <;> simp [Heap.update, ih, hfg]

theorem Heap.update_append_of_ne_nil (h t : Heap) (f : MapserverError → MapserverError)
    (hne : h ≠ []) : Heap.update (h ++ t) 0 f = Heap.update h 0 f ++ t := by
  cases h with
  | nil => exact absurd rfl hne
  | cons o h => rfl

theorem Heap.bump_zero_of_length_zero (o : MapserverError) (h : Heap) (ho : o.length = 0) :
    Heap.bump 0 (o :: h) = o :: h := by
  cases o
  simp only [Heap.bump, Heap.update] at *
  subst ho
  rfl

theorem Heap.bump_incr (k : Nat) (h : Heap) :
    (Heap.bump k h).update 0 (fun o => { o with length := uintIncr o.length }) =
      Heap.bump (k + 1) h := by
  unfold Heap.bump
  rw [Heap.update_update]
  congr 1
  funext o
  simp only [uintIncr, UINT_RANGE]
  congr 1
  omega

theorem Heap.bump_append (k : Nat) (h t : Heap) (hne : h ≠ []) :
    Heap.bump k (h ++ t) = Heap.bump k h ++ t :=
  Heap.update_append_of_ne_nil h t _ hne

theorem Heap.update_bump_copyFields (k a : Nat) (h : Heap) (e : errorObj) :
    (Heap.bump k h).update a (MapserverError.copyFields e) =
      Heap.bump k (h.update a (MapserverError.copyFields e)) :=
  Heap.update_comm h a 0 _ _ (fun _ => rfl)

theorem Heap.update_bump_next (k a : Nat) (h : Heap) (p : Option Nat) :
    (Heap.bump k h).update a (fun o => { o with next := p }) =
      Heap.bump k (h.update a (fun o => { o with next := p })) :=
  Heap.update_comm h a 0 _ _ (fun _ => rfl)

/-! ## The constructor in closed form -/

theorem MapserverError.copyLoop_single (dflt : MapserverError) (e : errorObj) (h : Heap)
    (copy : Nat) :
    MapserverError.copyLoop dflt [e] h copy =
      (((h.update copy (MapserverError.copyFields e)).update 0
          (fun o => { o with length := uintIncr o.length })), copy) := rfl

theorem MapserverError.copyLoop_step (dflt : MapserverError) (e e2 : errorObj)
    (rest : List errorObj) (h : Heap) (copy : Nat) :
    MapserverError.copyLoop dflt (e :: e2 :: rest) h copy =
      MapserverError.copyLoop dflt (e2 :: rest)
        ((((h.update copy (MapserverError.copyFields e)) ++ [dflt]).update copy
            (fun o => { o with next := some (h.update copy (MapserverError.copyFields e)).length })).update
          0 (fun o => { o with length := uintIncr o.length }))
        (h.update copy (MapserverError.copyFields e)).length := rfl

theorem MapserverError.copyLoop_eq (dflt : MapserverError) (rest : List errorObj) :
    ∀ (e : errorObj) (front : Heap) (c : MapserverError) (k : Nat),
      MapserverError.copyLoop dflt (e :: rest) (Heap.bump k (front ++ [c])) front.length =
        (Heap.bump (k + rest.length + 1)
            (front ++ MapserverError.pendingFrom dflt c front.length e rest),
          front.length + rest.length) := by
  induction rest with
  | nil =>
    intro e front c k
    rw [MapserverError.copyLoop_single, Heap.update_bump_copyFields, Heap.update_append_length,
      Heap.bump_incr]
    rfl
  | cons e2 rest ih =>
    intro e front c k
    rw [MapserverError.copyLoop_step, Heap.update_bump_copyFields, Heap.update_append_length]
    have hlen : (Heap.bump k (front ++ [MapserverError.copyFields e c])).length
        = front.length + 1 := by
      simp [Heap.bump, Heap.length_update]
    rw [hlen, ← Heap.bump_append k _ [dflt] (by simp), Heap.update_bump_next]
    rw [List.append_assoc, List.singleton_append, Heap.update_append_length, Heap.bump_incr]
    have ih' := ih e2
      (front ++ [{ MapserverError.copyFields e c with next := some (front.length + 1) }]) dflt
      (k + 1)
    simp only [List.length_append, List.length_singleton, List.append_assoc,
      List.singleton_append] at ih'
    rw [ih']
    simp only [List.length_cons, Prod.mk.injEq, MapserverError.pendingFrom]
    constructor
    · congr 1
      omega
    · omega

theorem MapserverError.update_pendingFrom (dflt : MapserverError) (rest : List errorObj) :
    ∀ (c : MapserverError) (base : Nat) (e : errorObj),
      Heap.update (MapserverError.pendingFrom dflt c base e rest) rest.length
          (fun o => { o with next := none }) =
        MapserverError.chainFrom dflt c base e rest := by
  induction rest with
  | nil => intro c base e; rfl
  | cons e2 rest ih =>
    intro c base e
    simp only [MapserverError.pendingFrom, MapserverError.chainFrom, List.length_cons,
      Heap.update, ih]

theorem MapserverError.bump_chainFrom (dflt c : MapserverError) (k base : Nat) (e : errorObj)
    (rest : List errorObj) :
    Heap.bump k (MapserverError.chainFrom dflt c base e rest) =
      MapserverError.chainFrom dflt { c with length := (c.length + k) % UINT_RANGE } base e
        rest := by
  cases rest <;> rfl

/-- The heap left by the constructor for a non-empty queue, in closed form. -/
theorem MapserverError.construct_cons (raw dflt : MapserverError) (e : errorObj)
    (rest : List errorObj) :
    MapserverError.construct raw dflt (e :: rest) =
      MapserverError.chainFrom dflt { raw with length := (rest.length + 1) % UINT_RANGE } 0 e
        rest := by
  have h0 : Heap.update [raw] 0 (fun o => { o with length := 0 }) =
      Heap.bump 0 (([] : Heap) ++ [{ raw with length := 0 }]) := by
    rw [List.nil_append, Heap.bump_zero_of_length_zero _ _ rfl]
    rfl
  have hloop := MapserverError.copyLoop_eq dflt rest e [] { raw with length := 0 } 0
  simp only [List.length_nil, List.nil_append, Nat.zero_add] at hloop h0
  unfold MapserverError.construct
  simp only [h0, hloop]
  rw [Heap.update_bump_next, MapserverError.update_pendingFrom, MapserverError.bump_chainFrom]
  simp

/-- The heap left by the constructor for the empty queue: the object `this` alone. -/
theorem MapserverError.construct_nil (raw dflt : MapserverError) :
    MapserverError.construct raw dflt [] = [{ raw with length := 0, next := none }] := rfl

theorem MapserverError.length_chainFrom (dflt : MapserverError) (rest : List errorObj) :
    ∀ (c : MapserverError) (base : Nat) (e : errorObj),
      (MapserverError.chainFrom dflt c base e rest).length = rest.length + 1 := by
  induction rest with
  | nil => intro c base e; rfl
  | cons e2 rest ih => intro c base e; simp [MapserverError.chainFrom, ih]

/-! ## Walking the captured chain -/

theorem MapserverError.nthNode_null (h : Heap) (k : Nat) :
    MapserverError.nthNode h k none = none := by
  cases k <;> rfl

theorem MapserverError.nthNode_chainFrom (dflt : MapserverError) (rest : List errorObj) :
    ∀ (e : errorObj) (front : Heap) (c : MapserverError) (k : Nat),
      MapserverError.nthNode (front ++ MapserverError.chainFrom dflt c front.length e rest) k
          (some front.length) =
        ((e :: rest)[k]?).map (fun r =>
          { MapserverError.copyFields r (if k = 0 then c else dflt) with
            next := if k < rest.length then some (front.length + k + 1) else none }) := by
  induction rest with
  | nil =>
    intro e front c k
    cases k with
    | zero => simp [MapserverError.chainFrom, MapserverError.nthNode, Heap.read_append_length]
    | succ k =>
      simp [MapserverError.chainFrom, MapserverError.nthNode, Heap.read_append_length,
        MapserverError.nthNode_null]
  | cons e2 rest ih =>
    intro e front c k
    cases k with
    | zero => simp [MapserverError.chainFrom, MapserverError.nthNode, Heap.read_append_length]
    | succ k =>
      have ih' := ih e2
        (front ++ [{ MapserverError.copyFields e c with next := some (front.length + 1) }]) dflt k
      simp only [List.length_append, List.length_singleton, List.append_assoc,
        List.singleton_append] at ih'
      simp only [MapserverError.chainFrom, MapserverError.nthNode, Heap.read_append_length, ih']
      simp only [List.getElem?_cons_succ, List.length_cons, Nat.add_lt_add_iff_right,
        ite_self, Nat.add_one_ne_zero, if_false]
      congr 1
      funext r
      congr 1
      split
      · simp only [Option.some.injEq]; omega
      · rfl

/-! ## The record converter after `Init` and before it -/

/-- The converter reads the four scalar members only. -/
theorem MapserverError.ToV8Error_scalars (cat : Int → String) (reg : Registry)
    (a b : MapserverError) (hc : a.code = b.code) (hr : a.routine = b.routine)
    (hm : a.message = b.message) (hi : a.isReported = b.isReported) :
    MapserverError.ToV8Error cat reg a = MapserverError.ToV8Error cat reg b := by
  simp only [MapserverError.ToV8Error, hc, hr, hm, hi]

/-- Once `Init` has run, the converter returns, and what it returns is `converted`. -/
theorem MapserverError.ToV8Error_Init (cat : Int → String) (s : Registry)
    (error : MapserverError) :
    MapserverError.ToV8Error cat (MapserverError.Init s) error =
      some (MapserverError.converted cat error) := rfl

/-- Before `Init` the converter does not return: the first `Set` is given empty handles. -/
theorem MapserverError.ToV8Error_start (cat : Int → String) (error : MapserverError) :
    MapserverError.ToV8Error cat Registry.start error = none := rfl

/-- The converter returns only when the handles it passes to `Set` are non-empty, and what it
returns is an `Error` object. -/
theorem MapserverError.ToV8Error_some (cat : Int → String) (reg : Registry)
    (error : MapserverError) (v : V8Value)
    (hv : MapserverError.ToV8Error cat reg error = some v) :
    reg.converterReady ∧ v.isError = true := by
  obtain ⟨m, n, c, g, r, i, e, p⟩ := reg
  cases m <;> cases n <;> cases c <;> cases g <;> cases r <;> cases i <;>
    simp [MapserverError.ToV8Error, V8Value.Set, V8Value.ofSymbol, Exception.Error] at hv
  subst hv
  exact ⟨⟨by simp, by simp, by simp, by simp, by simp, by simp⟩, rfl⟩

theorem MapserverError.converted_scalars (cat : Int → String) (a b : MapserverError)
    (hc : a.code = b.code) (hr : a.routine = b.routine) (hm : a.message = b.message)
    (hi : a.isReported = b.isReported) :
    MapserverError.converted cat a = MapserverError.converted cat b := by
  simp only [MapserverError.converted, hc, hr, hm, hi]

theorem MapserverError.converted_copyFields (cat : Int → String) (e : errorObj)
    (c : MapserverError) (p : Option Nat) :
    MapserverError.converted cat { MapserverError.copyFields e c with next := p } =
      MapserverError.converted cat (MapserverError.ofRecord e none 0) := rfl

theorem MapserverError.exported_scalars (cat : Int → String) (a b : MapserverError)
    (stack : List V8Value) (hc : a.code = b.code) (hr : a.routine = b.routine)
    (hm : a.message = b.message) (hi : a.isReported = b.isReported) :
    MapserverError.exported cat a stack = MapserverError.exported cat b stack := by
  simp only [MapserverError.exported, hc, hr, hm, hi]

/-- The last statement of `toV8Error` once `Init` has run: the stack is attached to the
converted primary. -/
theorem MapserverError.converted_Set_errorStack (cat : Int → String) (s : Registry)
    (primary : MapserverError) (stack : List V8Value) :
    (MapserverError.converted cat primary).Set (MapserverError.Init s).errorStack_symbol
        (V8Value.array stack) =
      some (MapserverError.exported cat primary stack) := rfl

theorem MapserverError.Get_exported_errorStack (cat : Int → String) (primary : MapserverError)
    (stack : List V8Value) :
    (MapserverError.exported cat primary stack).Get "errorStack" =
      some (V8Value.array stack) := by
  simp [MapserverError.exported, V8Value.Get]

theorem MapserverError.Get_exported_of_ne (cat : Int → String) (primary : MapserverError)
    (stack : List V8Value) (key : String) (hkey : key ≠ "errorStack") :
    (MapserverError.exported cat primary stack).Get key =
      (MapserverError.converted cat primary).Get key := by
  have h : ("errorStack" = key) = False := by
    simp only [eq_iff_iff, iff_false]; exact fun h => hkey h.symm
  simp [MapserverError.exported, MapserverError.converted, V8Value.Get, h]

theorem MapserverError.Delete_exported (cat : Int → String) (primary : MapserverError)
    (stack : List V8Value) :
    (MapserverError.exported cat primary stack).Delete "errorStack" =
      MapserverError.converted cat primary := by
  simp [MapserverError.exported, MapserverError.converted, V8Value.Delete]

theorem MapserverError.Get_converted_errorStack (cat : Int → String)
    (error : MapserverError) :
    (MapserverError.converted cat error).Get "errorStack" = none := by
  simp [MapserverError.converted, V8Value.Get]

theorem String.length_eq_zero_iff_eq_empty (s : String) : s.length = 0 ↔ s = "" := by
  cases s with
  | mk data =>
    constructor
    · intro h
      have : data = [] := List.length_eq_zero.mp h
      subst this
      rfl
    · intro h
      rw [h]
      rfl

/-! ## Machine integers and arrays -/

theorem uintDecr_of_pos (n : Nat) (h0 : 0 < n) (hn : n < UINT_RANGE) : uintDecr n = n - 1 := by
  simp only [uintDecr, UINT_RANGE] at *
  omega

theorem uintIncr_lt (x : Nat) : uintIncr x < UINT_RANGE :=
  Nat.mod_lt _ (by decide)

theorem uintDecr_lt (x : Nat) : uintDecr x < UINT_RANGE :=
  Nat.mod_lt _ (by decide)

theorem uintToInt_toNat_le (x : Nat) : (uintToInt x).toNat ≤ x := by
  unfold uintToInt
  split
  · simp
  · simp only [UINT_RANGE]
    omega

theorem uintToInt_toNat_of_lt (x : Nat) (hx : x < INT_RANGE) : (uintToInt x).toNat = x := by
  simp [uintToInt, hx]

theorem uintToInt_toNat_of_ge (x : Nat) (h1 : INT_RANGE ≤ x) (h2 : x < UINT_RANGE) :
    (uintToInt x).toNat = 0 := by
  unfold uintToInt
  simp only [INT_RANGE, UINT_RANGE] at *
  split
  · omega
  · omega

theorem Array.length_New (length : Int) : (Array.New length).length = length.toNat := by
  simp [Array.New]

theorem Array.mem_New (length : Int) (x : V8Value) (hx : x ∈ Array.New length) :
    x = V8Value.undefined :=
  List.eq_of_mem_replicate hx

theorem Array.Set_append_cons (done : List V8Value) (x v : V8Value) (tl : List V8Value) :
    Array.Set (done ++ x :: tl) done.length v = (done ++ [v]) ++ tl := by
  have hlt : done.length < (done ++ x :: tl).length := by simp
  simp only [Array.Set, hlt, if_true]
  induction done with
  | nil => rfl
  | cons d done ih =>
    simp only [List.cons_append, List.length_cons, List.set_cons_succ, List.cons.injEq, true_and]
    exact ih (by simp)

/-- A write at the first unwritten slot fills it; with no unwritten slot left, the write at the
end makes the array one longer. -/
theorem Array.Set_append_replicate (done : List V8Value) (m : Nat) (v : V8Value) :
    Array.Set (done ++ List.replicate m V8Value.undefined) done.length v =
      (done ++ [v]) ++ List.replicate (m - 1) V8Value.undefined := by
  cases m with
  | zero => simp [Array.Set]
  | succ m => rw [List.replicate_succ, Array.Set_append_cons]; rfl

theorem Array.length_Set_le (array : List V8Value) (index : Nat) (value : V8Value) :
    (Array.Set array index value).length ≤ max array.length (index + 1) := by
  unfold Array.Set
  split
  · simp
  · simp only [List.length_append, List.length_replicate, List.length_singleton]
    omega

theorem Array.mem_Set (array : List V8Value) (index : Nat) (value x : V8Value)
    (hx : x ∈ Array.Set array index value) :
    x ∈ array ∨ x = V8Value.undefined ∨ x = value := by
  unfold Array.Set at hx
  split at hx
  · rcases List.mem_or_eq_of_mem_set hx with h | h
    · exact Or.inl h
    · exact Or.inr (Or.inr h)
  · simp only [List.mem_append, List.mem_singleton] at hx
    rcases hx with (h | h) | h
    · exact Or.inl h
    · exact Or.inr (Or.inl (List.eq_of_mem_replicate h))
    · exact Or.inr (Or.inr h)

/-! ## The loop of `toV8Error` on a captured chain -/

theorem MapserverError.stackLoop_chainFrom (cat : Int → String) (s : Registry)
    (dflt : MapserverError) (rest : List errorObj) :
    ∀ (e : errorObj) (front : Heap) (c : MapserverError) (done : List V8Value) (m fuel : Nat),
      rest.length + 1 ≤ fuel → done.length + rest.length + 1 < UINT_RANGE →
      m ≤ rest.length + 1 →
      MapserverError.stackLoop cat (MapserverError.Init s)
          (front ++ MapserverError.chainFrom dflt c front.length e rest) fuel
          (some front.length) done.length
          (done ++ List.replicate m V8Value.undefined) =
        some (done ++ (e :: rest).map
          (fun r => MapserverError.converted cat (MapserverError.ofRecord r none 0))) := by
  induction rest with
  | nil =>
    intro e front c done m fuel hfuel hi hm
    obtain ⟨fuel, rfl⟩ : ∃ f, fuel = f + 1 := ⟨fuel - 1, by simp at hfuel; omega⟩
    have hm0 : m - 1 = 0 := by simp at hm; omega
    simp only [MapserverError.chainFrom, MapserverError.stackLoop, Heap.read_append_length,
      MapserverError.ToV8Error_Init, Array.Set_append_replicate,
      MapserverError.converted_copyFields, hm0, List.replicate_zero, List.append_nil,
      List.map_cons, List.map_nil]
  | cons e2 rest ih =>
    intro e front c done m fuel hfuel hi hm
    obtain ⟨fuel, rfl⟩ : ∃ f, fuel = f + 1 := ⟨fuel - 1, by simp at hfuel; omega⟩
    simp only [List.length_cons] at hfuel hi hm
    have hincr : uintIncr done.length = done.length + 1 := by
      simp only [uintIncr]; exact Nat.mod_eq_of_lt (by omega)
    have ih' := ih e2
      (front ++ [{ MapserverError.copyFields e c with next := some (front.length + 1) }]) dflt
      (done ++ [MapserverError.converted cat (MapserverError.ofRecord e none 0)]) (m - 1) fuel
      (by omega) (by simp only [List.length_append, List.length_singleton]; omega) (by omega)
    simp only [List.length_append, List.length_singleton, List.append_assoc,
      List.singleton_append] at ih'
    simp only [MapserverError.chainFrom, MapserverError.stackLoop, Heap.read_append_length,
      MapserverError.ToV8Error_Init, Array.Set_append_replicate,
      MapserverError.converted_copyFields, hincr, List.append_assoc, List.singleton_append,
      ih', List.map_cons]

theorem MapserverError.stackLoop_chainFrom_returns (cat : Int → String) (s : Registry)
    (dflt : MapserverError) (rest : List errorObj) :
    ∀ (e : errorObj) (front : Heap) (c : MapserverError) (i : Nat) (errorStack : List V8Value)
      (fuel : Nat), rest.length + 1 ≤ fuel →
      ∃ out, MapserverError.stackLoop cat (MapserverError.Init s)
          (front ++ MapserverError.chainFrom dflt c front.length e rest) fuel
          (some front.length) i errorStack = some out := by
  induction rest with
  | nil =>
    intro e front c i errorStack fuel hfuel
    obtain ⟨fuel, rfl⟩ : ∃ f, fuel = f + 1 := ⟨fuel - 1, by simp at hfuel; omega⟩
    refine ⟨Array.Set errorStack i (MapserverError.converted cat
      { MapserverError.copyFields e c with next := none }), ?_⟩
    simp only [MapserverError.chainFrom, MapserverError.stackLoop, Heap.read_append_length,
      MapserverError.ToV8Error_Init]
  | cons e2 rest ih =>
    intro e front c i errorStack fuel hfuel
    obtain ⟨fuel, rfl⟩ : ∃ f, fuel = f + 1 := ⟨fuel - 1, by simp at hfuel; omega⟩
    simp only [List.length_cons] at hfuel
    have ih' := ih e2
      (front ++ [{ MapserverError.copyFields e c with next := some (front.length + 1) }]) dflt
      (uintIncr i) (Array.Set errorStack i (MapserverError.converted cat
        { MapserverError.copyFields e c with next := some (front.length + 1) })) fuel (by omega)
    simp only [List.length_append, List.length_singleton, List.append_assoc,
      List.singleton_append] at ih'
    obtain ⟨out, hout⟩ := ih'
    exact ⟨out, by simp only [MapserverError.chainFrom, MapserverError.stackLoop,
      Heap.read_append_length, MapserverError.ToV8Error_Init, hout]⟩

theorem MapserverError.stackLoop_chainFrom_mem (cat : Int → String) (s : Registry)
    (dflt : MapserverError) (rest : List errorObj) :
    ∀ (e : errorObj) (front : Heap) (c : MapserverError) (i : Nat) (errorStack : List V8Value)
      (fuel : Nat) (out : List V8Value),
      MapserverError.stackLoop cat (MapserverError.Init s)
          (front ++ MapserverError.chainFrom dflt c front.length e rest) fuel
          (some front.length) i errorStack = some out →
      ∀ x ∈ out, x ∈ errorStack ∨ x = V8Value.undefined ∨
        ∃ r ∈ e :: rest, x = MapserverError.converted cat (MapserverError.ofRecord r none 0) := by
  induction rest with
  | nil =>
    intro e front c i errorStack fuel out hout x hx
    cases fuel with
    | zero => simp [MapserverError.stackLoop] at hout
    | succ fuel =>
      simp only [MapserverError.chainFrom, MapserverError.stackLoop, Heap.read_append_length,
        MapserverError.ToV8Error_Init, MapserverError.converted_copyFields,
        Option.some.injEq] at hout
      subst hout
      rcases Array.mem_Set _ _ _ _ hx with h | h | h
      · exact Or.inl h
      · exact Or.inr (Or.inl h)
      · exact Or.inr (Or.inr ⟨e, List.mem_cons_self _ _, h⟩)
  | cons e2 rest ih =>
    intro e front c i errorStack fuel out hout x hx
    cases fuel with
    | zero => simp [MapserverError.stackLoop] at hout
    | succ fuel =>
      have ih' := ih e2
        (front ++ [{ MapserverError.copyFields e c with next := some (front.length + 1) }]) dflt
        (uintIncr i) (Array.Set errorStack i
          (MapserverError.converted cat (MapserverError.ofRecord e none 0))) fuel out
      simp only [List.length_append, List.length_singleton, List.append_assoc,
        List.singleton_append] at ih'
      simp only [MapserverError.chainFrom, MapserverError.stackLoop, Heap.read_append_length,
        MapserverError.ToV8Error_Init, MapserverError.converted_copyFields] at hout
      rcases ih' hout x hx with h | h | ⟨r, hr, h⟩
      · rcases Array.mem_Set _ _ _ _ h with h | h | h
        · exact Or.inl h
        · exact Or.inr (Or.inl h)
        · exact Or.inr (Or.inr ⟨e, List.mem_cons_self _ _, h⟩)
      · exact Or.inr (Or.inl h)
      · exact Or.inr (Or.inr ⟨r, List.mem_cons_of_mem _ hr, h⟩)

theorem MapserverError.stackLoop_length_le (cat : Int → String) (reg : Registry) (h : Heap)
    (fuel : Nat) :
    ∀ (p : Option Nat) (i : Nat) (errorStack out : List V8Value), i < UINT_RANGE →
      MapserverError.stackLoop cat reg h fuel p i errorStack = some out →
      out.length ≤ max errorStack.length UINT_RANGE := by
  induction fuel with
  | zero =>
    intro p i errorStack out _ hout
    cases p with
    | none =>
      simp only [MapserverError.stackLoop, Option.some.injEq] at hout
      subst hout
      exact Nat.le_max_left _ _
    | some a => simp [MapserverError.stackLoop] at hout
  | succ fuel ih =>
    intro p i errorStack out hi hout
    cases p with
    | none =>
      simp only [MapserverError.stackLoop, Option.some.injEq] at hout
      subst hout
      exact Nat.le_max_left _ _
    | some a =>
      simp only [MapserverError.stackLoop] at hout
      cases hr : h.read a with
      | none => simp [hr] at hout
      | some node =>
        simp only [hr] at hout
        cases hc : MapserverError.ToV8Error cat reg node with
        | none => simp [hc] at hout
        | some exception =>
          simp only [hc] at hout
          have h1 := ih _ _ _ _ (uintIncr_lt i) hout
          have h2 := Array.length_Set_le errorStack i exception
          omega

/-! ## The export of a captured chain -/

/-- The array that `toV8Error` allocates never has more slots than the unsigned value of
`length-1`. -/
theorem Array.New_uintToInt (x : Nat) :
    Array.New (uintToInt x) = List.replicate (uintToInt x).toNat V8Value.undefined := rfl

/-- Capture followed by export, after `Init`, for a non-empty queue whose length fits an
`unsigned int`: the converted first record, with the conversions of the other records attached
as the error stack. -/
theorem MapserverError.toV8Error_construct (cat : Int → String) (s : Registry)
    (raw dflt : MapserverError) (e : errorObj) (rest : List errorObj)
    (hN : rest.length + 1 < UINT_RANGE) :
    MapserverError.toV8Error cat (MapserverError.Init s)
        (MapserverError.construct raw dflt (e :: rest)) =
      some (MapserverError.exported cat (MapserverError.ofRecord e none 0)
        (rest.map (fun r => MapserverError.converted cat (MapserverError.ofRecord r none 0)))) := by
  rw [MapserverError.construct_cons]
  have hmod : (rest.length + 1) % UINT_RANGE = rest.length + 1 := Nat.mod_eq_of_lt hN
  have hdecr : uintDecr (rest.length + 1) = rest.length :=
    uintDecr_of_pos (rest.length + 1) (by omega) hN
  have hle := uintToInt_toNat_le rest.length
  cases rest with
  | nil =>
    simp only [List.length_nil, Nat.zero_add] at hmod hdecr
    simp only [MapserverError.toV8Error, MapserverError.chainFrom, Heap.read,
      MapserverError.copyFields, List.length_nil, Nat.zero_add, hmod, hdecr,
      MapserverError.stackLoop, MapserverError.ToV8Error_Init, List.map_nil]
    rfl
  | cons e2 rest =>
    have hloop := MapserverError.stackLoop_chainFrom cat s dflt rest e2
      [{ MapserverError.copyFields e { raw with length := (rest.length + 1 + 1) % UINT_RANGE }
          with next := some (0 + 1) }] dflt [] (uintToInt (rest.length + 1)).toNat
      (rest.length + 1 + 1) (by omega)
      (by simp only [List.length_nil, List.length_cons] at hN ⊢; omega)
      (by simpa using hle)
    simp only [List.length_singleton, List.length_nil, List.nil_append, List.singleton_append,
      Nat.zero_add] at hloop
    simp only [List.length_cons] at hmod hdecr
    simp only [MapserverError.copyFields, hmod] at hloop
    simp only [MapserverError.toV8Error, MapserverError.chainFrom, Heap.read, List.length_cons,
      MapserverError.length_chainFrom, MapserverError.copyFields, hmod, hdecr,
      Array.New_uintToInt, Nat.zero_add, hloop, MapserverError.ToV8Error_Init]
    rfl

/-- Capture followed by export, after `Init`, returns for every non-empty queue, of any
length: the converted first record with some array attached as the error stack. -/
theorem MapserverError.toV8Error_construct_returns (cat : Int → String) (s : Registry)
    (raw dflt : MapserverError) (e : errorObj) (rest : List errorObj) :
    ∃ stack,
      MapserverError.toV8Error cat (MapserverError.Init s)
          (MapserverError.construct raw dflt (e :: rest)) =
        some (MapserverError.exported cat (MapserverError.ofRecord e none 0) stack) ∧
      ∀ x ∈ stack, x = V8Value.undefined ∨ ∃ r ∈ rest,
        x = MapserverError.converted cat (MapserverError.ofRecord r none 0) := by
  rw [MapserverError.construct_cons]
  cases rest with
  | nil =>
    refine ⟨Array.New (uintToInt (uintDecr ((([] : List errorObj).length + 1) % UINT_RANGE))),
      ?_, fun x hx => Or.inl (Array.mem_New _ x hx)⟩
    simp only [MapserverError.toV8Error, MapserverError.chainFrom, Heap.read,
      MapserverError.stackLoop, MapserverError.ToV8Error_Init]
    rfl
  | cons e2 rest =>
    obtain ⟨out, hout⟩ := MapserverError.stackLoop_chainFrom_returns cat s dflt rest e2
      [{ MapserverError.copyFields e
            { raw with length := ((e2 :: rest).length + 1) % UINT_RANGE }
          with next := some (0 + 1) }] dflt 0
      (Array.New (uintToInt (uintDecr (((e2 :: rest).length + 1) % UINT_RANGE))))
      (rest.length + 1 + 1) (by omega)
    have hmem := MapserverError.stackLoop_chainFrom_mem cat s dflt rest e2 _ _ _ _ _ _ hout
    simp only [List.length_singleton, List.singleton_append, Nat.zero_add] at hout
    refine ⟨out, ?_, ?_⟩
    · simp only [MapserverError.toV8Error, MapserverError.chainFrom, Heap.read,
        List.length_cons, MapserverError.length_chainFrom, MapserverError.copyFields,
        MapserverError.ToV8Error_Init]
      simp only [MapserverError.copyFields, List.length_cons] at hout
      rw [hout]
      rfl
    · intro x hx
      rcases hmem x hx with h | h | h
      · exact Or.inl (Array.mem_New _ x h)
      · exact Or.inl h
      · exact Or.inr h

/-- Capture followed by export for the empty queue, after `Init`: the conversion of the object
`this` as the constructor found it, with an empty array attached (`length-1` reaches
`Array::New` as `-1`). -/
theorem MapserverError.toV8Error_construct_nil (cat : Int → String) (s : Registry)
    (raw dflt : MapserverError) :
    MapserverError.toV8Error cat (MapserverError.Init s)
        (MapserverError.construct raw dflt []) =
      some (MapserverError.exported cat raw []) := by
  rw [MapserverError.construct_nil]
  have hzero : (uintToInt (uintDecr 0)).toNat = 0 := by decide
  have hsize : Array.New (uintToInt (uintDecr 0)) = [] := by
    rw [Array.New_uintToInt, hzero, List.replicate_zero]
  simp only [MapserverError.toV8Error, Heap.read, MapserverError.stackLoop, hsize,
    MapserverError.ToV8Error_Init]
  rfl

/-- The shape of every export of a captured chain after `Init`: a converted primary with an
array attached, each entry of which is an unwritten slot or the conversion of one of the
records after the first. -/
theorem MapserverError.toV8Error_construct_shape (cat : Int → String) (s : Registry)
    (raw dflt : MapserverError) (q : List errorObj) :
    ∃ primary stack,
      MapserverError.toV8Error cat (MapserverError.Init s)
          (MapserverError.construct raw dflt q) =
        some (MapserverError.exported cat primary stack) ∧
      ∀ x ∈ stack, x = V8Value.undefined ∨
        ∃ r ∈ q.drop 1, x = MapserverError.converted cat (MapserverError.ofRecord r none 0) := by
  cases q with
  | nil =>
    exact ⟨raw, [], MapserverError.toV8Error_construct_nil cat s raw dflt,
      fun x hx => absurd hx (List.not_mem_nil x)⟩
  | cons e rest =>
    obtain ⟨stack, hv, hmem⟩ := MapserverError.toV8Error_construct_returns cat s raw dflt e rest
    exact ⟨_, stack, hv, by simpa using hmem⟩

/-! ## Bounds and outcomes that hold for every heap -/

/-- Whatever the heap, an exported error stack has at most `2^32` elements. -/
theorem MapserverError.errorStack_length_le (cat : Int → String) (s : Registry) (h : Heap)
    (v : V8Value) (stack : List V8Value)
    (hv : MapserverError.toV8Error cat (MapserverError.Init s) h = some v)
    (hs : v.Get "errorStack" = some (V8Value.array stack)) :
    stack.length ≤ UINT_RANGE := by
  unfold MapserverError.toV8Error at hv
  cases hr : h.read 0 with
  | none =>
    simp only [hr] at hv
    exact Option.noConfusion hv
  | some self =>
    simp only [hr] at hv
    cases hl : MapserverError.stackLoop cat (MapserverError.Init s) h h.length self.next 0
        (Array.New (uintToInt (uintDecr self.length))) with
    | none =>
      simp only [hl] at hv
      exact Option.noConfusion hv
    | some out =>
      simp only [hl, MapserverError.ToV8Error_Init, MapserverError.converted_Set_errorStack,
        Option.some.injEq] at hv
      subst hv
      rw [MapserverError.Get_exported_errorStack] at hs
      simp only [Option.some.injEq, V8Value.array.injEq] at hs
      subst hs
      have h1 := MapserverError.stackLoop_length_le cat (MapserverError.Init s) h h.length
        self.next 0 _ _ (by decide) hl
      have h2 : (Array.New (uintToInt (uintDecr self.length))).length < UINT_RANGE := by
        rw [Array.length_New]
        exact Nat.lt_of_le_of_lt (uintToInt_toNat_le _) (uintDecr_lt _)
      omega

/-- The `length` member of the captured head counts the records modulo `2^32`. -/
theorem MapserverError.construct_length (raw dflt : MapserverError) (q : List errorObj) :
    (Heap.read (MapserverError.construct raw dflt q) 0).map MapserverError.length =
      some (q.length % UINT_RANGE) := by
  cases q with
  | nil => rfl
  | cons e rest =>
    rw [MapserverError.construct_cons]
    cases rest <;> rfl

/-- Before `Init`, `toV8Error` returns on no heap. -/
theorem MapserverError.toV8Error_start (cat : Int → String) (h : Heap) :
    MapserverError.toV8Error cat Registry.start h = none := by
  unfold MapserverError.toV8Error
  cases h.read 0 with
  | none => rfl
  | some self =>
    simp only
    cases MapserverError.stackLoop cat Registry.start h h.length self.next 0
        (Array.New (uintToInt (uintDecr self.length))) with
    | none => rfl
    | some out => simp only [MapserverError.ToV8Error_start]

/-- The export returns only when the seven handles are non-empty, and what it returns is an
`Error` object. -/
theorem MapserverError.toV8Error_some (cat : Int → String) (reg : Registry) (h : Heap)
    (v : V8Value) (hv : MapserverError.toV8Error cat reg h = some v) :
    reg.converterReady ∧ reg.errorStack_symbol ≠ none ∧ v.isError = true := by
  unfold MapserverError.toV8Error at hv
  cases hr : h.read 0 with
  | none =>
    simp only [hr] at hv
    exact Option.noConfusion hv
  | some self =>
    simp only [hr] at hv
    cases hl : MapserverError.stackLoop cat reg h h.length self.next 0
        (Array.New (uintToInt (uintDecr self.length))) with
    | none =>
      simp only [hl] at hv
      exact Option.noConfusion hv
    | some out =>
      simp only [hl] at hv
      cases hc : MapserverError.ToV8Error cat reg self with
      | none =>
        simp only [hc] at hv
        exact Option.noConfusion hv
      | some result =>
        simp only [hc] at hv
        obtain ⟨hready, herr⟩ := MapserverError.ToV8Error_some cat reg self result hc
        cases hk : reg.errorStack_symbol with
        | none =>
          rw [hk] at hv
          cases result <;> exact Option.noConfusion hv
        | some key =>
          rw [hk] at hv
          refine ⟨hready, by simp, ?_⟩
          cases result <;> simp [V8Value.isError] at herr
          simp only [V8Value.Set, Option.some.injEq] at hv
          subst hv
          rfl

/-! ## Capture and export of a non-empty queue (C1, C2) -/

/-- C1, amended: for every foreign queue `e :: rest` (length `N ≥ 1`), capture followed by export
returns a primary exception whose `code`, `routine` and `isReported` are those of the first
record `e`; and when `N` is below `2^32` its `errorStack` has exactly `N - 1` elements (none for
a single-node queue). -/
theorem C1_primary_fields_and_stack_length (cat : Int → String) (s : Registry)
    (raw dflt : MapserverError) (e : errorObj) (rest : List errorObj) :
    ∃ v,
      MapserverError.toV8Error cat (MapserverError.Init s)
        (MapserverError.construct raw dflt (e :: rest)) = some v ∧
      v.Get "code" = some (V8Value.integer e.code) ∧
      v.Get "routine" = some (V8Value.string e.routine) ∧
      v.Get "isReported" = some (V8Value.boolean e.isreported) ∧
      ((e :: rest).length < UINT_RANGE →
        ∃ stack, v.Get "errorStack" = some (V8Value.array stack) ∧
          stack.length = (e :: rest).length - 1) := by
  obtain ⟨stack, hv, _⟩ := MapserverError.toV8Error_construct_returns cat s raw dflt e rest
  refine ⟨_, hv, ?_, ?_, ?_, ?_⟩
  · rw [MapserverError.Get_exported_of_ne _ _ _ _ (by decide)]
    simp [MapserverError.converted, V8Value.Get, MapserverError.ofRecord]
  · rw [MapserverError.Get_exported_of_ne _ _ _ _ (by decide)]
    simp [MapserverError.converted, V8Value.Get, MapserverError.ofRecord]
  · rw [MapserverError.Get_exported_of_ne _ _ _ _ (by decide)]
    simp [MapserverError.converted, V8Value.Get, MapserverError.ofRecord]
  · intro hN
    have hv' := MapserverError.toV8Error_construct cat s raw dflt e rest hN
    rw [hv] at hv'
    rw [Option.some.inj hv']
    exact ⟨_, MapserverError.Get_exported_errorStack _ _ _, by simp⟩

/-- C1, witness: the amended statement at the two-record scenario queue, whose length is below
`2^32`: the primary has the fields of the first record and the error stack has one element. -/
theorem C1_witness_scenario :
    (scenarioFirst :: [scenarioSecond]).length < UINT_RANGE ∧
    ∃ v,
      MapserverError.toV8Error categoryFor (MapserverError.Init Registry.start)
        (MapserverError.construct sampleObject sampleObject
          (scenarioFirst :: [scenarioSecond])) = some v ∧
      v.Get "code" = some (V8Value.integer 1) ∧
      v.Get "routine" = some (V8Value.string "loadMap") ∧
      v.Get "isReported" = some (V8Value.boolean true) ∧
      ∃ stack, v.Get "errorStack" = some (V8Value.array stack) ∧ stack.length = 1 := by
  obtain ⟨v, hv, hc, hr, hi, hstack⟩ :=
    C1_primary_fields_and_stack_length categoryFor Registry.start sampleObject sampleObject
      scenarioFirst [scenarioSecond]
  exact ⟨by decide, v, hv, hc, hr, hi, hstack (by decide)⟩

/-- C1, counterexample: for a queue of `2^32 + 2` records no export has an `errorStack` of
`N - 1 = 2^32 + 1` elements: the index `i` is an `unsigned int` and the array is never written
beyond index `2^32 - 1`. -/
theorem C1_counterexample_queue_beyond_uint :
    ¬ ∃ v stack,
      MapserverError.toV8Error categoryFor (MapserverError.Init Registry.start)
        (MapserverError.construct sampleObject sampleObject
          (List.replicate 4294967298 scenarioFirst)) = some v ∧
      v.Get "errorStack" = some (V8Value.array stack) ∧
      stack.length = (List.replicate 4294967298 scenarioFirst).length - 1 := by
  rintro ⟨v, stack, hv, hs, hl⟩
  have hle := MapserverError.errorStack_length_le _ _ _ _ _ hv hs
  rw [List.length_replicate] at hl
  simp only [UINT_RANGE] at hle
  omega

/-- C2, amended: for every foreign queue `q` of length `N` with `1 ≤ N < 2^32`, the exported
`errorStack` is the map of the record converter over the records `1 .. N-1` in queue order:
element `i` is what `ToV8Error` returns for the object that holds record `i + 1` (whatever its
`next` and `length` members), for every `i` with `i + 1 < N`, and there are no other
elements. -/
theorem C2_stack_elements (cat : Int → String) (s : Registry) (raw dflt : MapserverError)
    (q : List errorObj) (h1 : 1 ≤ q.length) (hN : q.length < UINT_RANGE) :
    ∃ v stack,
      MapserverError.toV8Error cat (MapserverError.Init s)
        (MapserverError.construct raw dflt q) = some v ∧
      v.Get "errorStack" = some (V8Value.array stack) ∧
      stack.map some = (q.drop 1).map (fun r =>
        MapserverError.ToV8Error cat (MapserverError.Init s) (MapserverError.ofRecord r none 0)) ∧
      ∀ (i : Nat) (r : errorObj), q[i + 1]? = some r → ∀ (next : Option Nat) (length : Nat),
        stack[i]? = MapserverError.ToV8Error cat (MapserverError.Init s)
          (MapserverError.ofRecord r next length) := by
  cases q with
  | nil => simp at h1
  | cons e rest =>
    refine ⟨_, rest.map (fun r => MapserverError.converted cat
        (MapserverError.ofRecord r none 0)),
      MapserverError.toV8Error_construct cat s raw dflt e rest hN,
      MapserverError.Get_exported_errorStack _ _ _, ?_, ?_⟩
    · simp only [List.drop_succ_cons, List.drop_zero, List.map_map,
        MapserverError.ToV8Error_Init]
      rfl
    · intro i r hr next length
      simp only [List.getElem?_cons_succ] at hr
      simp only [List.getElem?_map, hr, Option.map_some', MapserverError.ToV8Error_Init]
      rfl

/-- C2, witness: the amended statement at the scenario queue
`[{1,"loadMap","file not found",true},{2,"parse","",false}]`; its error stack is the one element
`{name=TAG, message=categoryFor(2), code=2, routine="parse", category=categoryFor(2),
isReported=false}`. -/
theorem C2_witness_scenario :
    (1 ≤ scenarioQueue.length ∧ scenarioQueue.length < UINT_RANGE) ∧
    (∃ v stack,
      MapserverError.toV8Error categoryFor (MapserverError.Init Registry.start)
        (MapserverError.construct sampleObject sampleObject scenarioQueue) = some v ∧
      v.Get "errorStack" = some (V8Value.array stack) ∧
      stack.map some = (scenarioQueue.drop 1).map (fun r =>
        MapserverError.ToV8Error categoryFor (MapserverError.Init Registry.start)
          (MapserverError.ofRecord r none 0)) ∧
      ∀ (i : Nat) (r : errorObj), scenarioQueue[i + 1]? = some r →
        ∀ (next : Option Nat) (length : Nat),
        stack[i]? = MapserverError.ToV8Error categoryFor
          (MapserverError.Init Registry.start) (MapserverError.ofRecord r next length)) ∧
    (scenarioQueue.drop 1).map (fun r =>
        MapserverError.ToV8Error categoryFor (MapserverError.Init Registry.start)
          (MapserverError.ofRecord r none 0)) =
      [ some (V8Value.error
          [ (some "message", V8Value.string (categoryFor 2)),
            (some "name", V8Value.string "MapserverError"),
            (some "routine", V8Value.string "parse"),
            (some "code", V8Value.integer 2),
            (some "category", V8Value.string (categoryFor 2)),
            (some "isReported", V8Value.boolean false) ]) ] :=
  ⟨⟨by decide, by decide⟩,
    C2_stack_elements categoryFor Registry.start sampleObject sampleObject scenarioQueue
      (by decide) (by decide),
    rfl⟩

/-- C2, counterexample: for a queue of `2^32 + 2` records, `i = 2^32` is an index with
`i < N - 1`, and no export has the conversion of record `i + 1` as element `i` of its
`errorStack`: the stack has no element at that index. -/
theorem C2_counterexample_queue_beyond_uint :
    ¬ ∃ v stack,
      MapserverError.toV8Error categoryFor (MapserverError.Init Registry.start)
        (MapserverError.construct sampleObject sampleObject
          (List.replicate 4294967298 scenarioSecond)) = some v ∧
      v.Get "errorStack" = some (V8Value.array stack) ∧
      stack[4294967296]? = MapserverError.ToV8Error categoryFor
        (MapserverError.Init Registry.start) (MapserverError.ofRecord scenarioSecond none 0) := by
  rintro ⟨v, stack, hv, hs, hi⟩
  have hle := MapserverError.errorStack_length_le _ _ _ _ _ hv hs
  have hnone : stack[4294967296]? = none :=
    List.getElem?_eq_none (by simpa only [UINT_RANGE] using hle)
  rw [hnone, MapserverError.ToV8Error_Init] at hi
  exact Option.noConfusion hi

/-! ## The record converter (C3, C8) -/

/-- C3: for every record, `ToV8Error` (after `Init`) returns a value whose `message` is the
record's message when that message is non-empty and `categoryFor(code)` otherwise, and whose
`category` is `categoryFor(code)` in both cases. -/
theorem C3_message_and_category (cat : Int → String) (s : Registry) (error : MapserverError) :
    ∃ v, MapserverError.ToV8Error cat (MapserverError.Init s) error = some v ∧
      v.Get "message" =
        some (V8Value.string (if error.message = "" then cat error.code else error.message)) ∧
      v.Get "category" = some (V8Value.string (cat error.code)) := by
  refine ⟨_, MapserverError.ToV8Error_Init cat s error, ?_, ?_⟩
  · by_cases hm : error.message = ""
    · have hl : error.message.length = 0 := (String.length_eq_zero_iff_eq_empty _).mpr hm
      simp [MapserverError.converted, V8Value.Get, hm, hl]
    · have hl : error.message.length ≠ 0 :=
        fun h => hm ((String.length_eq_zero_iff_eq_empty _).mp h)
      simp [MapserverError.converted, V8Value.Get, hm, hl]
  · simp [MapserverError.converted, V8Value.Get]

/-- C8: for every record, `ToV8Error` after `Init` returns a value whose `name` is the type tag
`"MapserverError"`, and whose `routine`, `code` and `isReported` are those of the record. -/
theorem C8_name_routine_code_isReported (cat : Int → String) (s : Registry)
    (error : MapserverError) :
    ∃ v, MapserverError.ToV8Error cat (MapserverError.Init s) error = some v ∧
      v.Get "name" = some (V8Value.string "MapserverError") ∧
      v.Get "routine" = some (V8Value.string error.routine) ∧
      v.Get "code" = some (V8Value.integer error.code) ∧
      v.Get "isReported" = some (V8Value.boolean error.isReported) := by
  refine ⟨_, MapserverError.ToV8Error_Init cat s error, ?_⟩
  simp [MapserverError.converted, V8Value.Get]

/-! ## The empty queue (C4, C7) -/

/-- C4, amended: for the empty queue, capture followed by export (after `Init`) returns an
exception value whose `errorStack` is the empty sequence; its `code`, `category`, `isReported`,
`routine` and `message` are the conversion of the members of the head object as the constructor
found them (the constructor assigns none of them), not a sentinel. -/
theorem C4_empty_queue_export (cat : Int → String) (s : Registry) (raw dflt : MapserverError) :
    ∃ v,
      MapserverError.toV8Error cat (MapserverError.Init s)
        (MapserverError.construct raw dflt []) = some v ∧
      v.isError = true ∧
      v.Get "errorStack" = some (V8Value.array []) ∧
      v.Get "code" = some (V8Value.integer raw.code) ∧
      v.Get "category" = some (V8Value.string (cat raw.code)) ∧
      v.Get "isReported" = some (V8Value.boolean raw.isReported) ∧
      v.Get "routine" = some (V8Value.string raw.routine) ∧
      v.Get "message" =
        some (V8Value.string (if raw.message.length ≠ 0 then raw.message else cat raw.code)) := by
  refine ⟨_, MapserverError.toV8Error_construct_nil cat s raw dflt, rfl,
    MapserverError.Get_exported_errorStack _ _ _, ?_, ?_, ?_, ?_, ?_⟩
  all_goals
    rw [MapserverError.Get_exported_of_ne _ _ _ _ (by decide)]
    simp [MapserverError.converted, V8Value.Get]

/-- C4, counterexample: the exported `code` for the empty queue is no fixed sentinel: it is the
value that the `code` member of the object held before the constructor ran, `7` for one object
and `8` for another. -/
theorem C4_counterexample_no_sentinel :
    ¬ ∃ sentinel : Int, ∀ raw : MapserverError,
      (MapserverError.toV8Error categoryFor (MapserverError.Init Registry.start)
        (MapserverError.construct raw sampleObject [])).bind (fun v => v.Get "code") =
        some (V8Value.integer sentinel) := by
  rintro ⟨sentinel, hall⟩
  have h7 := hall sampleObject
  have h8 := hall { sampleObject with code := 8 }
  rw [MapserverError.toV8Error_construct_nil, Option.some_bind,
    MapserverError.Get_exported_of_ne _ _ _ _ (by decide)] at h7 h8
  simp [MapserverError.converted, V8Value.Get, sampleObject] at h7 h8
  omega

/-- C7, amended: for the empty queue the constructor allocates no object and copies no field:
the heap holds the head object alone, with `length = 0` and `next = NULL`, its `code`,
`routine`, `message` and `isReported` being what they were before the constructor ran. -/
theorem C7_empty_queue_capture (raw dflt : MapserverError) :
    MapserverError.construct raw dflt [] = [{ raw with length := 0, next := none }] ∧
    MapserverError.nthNode (MapserverError.construct raw dflt []) 0 (some 0) =
      some { raw with length := 0, next := none } ∧
    MapserverError.nthNode (MapserverError.construct raw dflt []) 1 (some 0) = none := by
  refine ⟨rfl, rfl, rfl⟩

/-- C7, counterexample: the chain captured from the empty queue has `length = 0` and yet holds a
record, the head object itself, whose `code` is the `7` that was never copied from any foreign
record. -/
theorem C7_counterexample_placeholder_record :
    (Heap.read (MapserverError.construct sampleObject sampleObject []) 0).map
        MapserverError.length = some 0 ∧
    (MapserverError.construct sampleObject sampleObject []).length = 1 ∧
    (MapserverError.nthNode (MapserverError.construct sampleObject sampleObject []) 0
        (some 0)).map MapserverError.code = some 7 := by
  decide

/-! ## The captured chain (C6) -/

/-- C6, amended: for every finite foreign queue `q` with `N` nodes, the constructor leaves a
chain whose head has `length = N mod 2^32`, that is `N` whenever `N < 2^32`, and whose `k`-th
object, following `next` links from the head, holds the `code`, `routine`, `message` and
`isReported` of the `k`-th foreign record, for every `k < N`; the `next` link of that object is
null exactly when it is the last one. -/
theorem C6_captured_chain (raw dflt : MapserverError) (q : List errorObj) :
    (Heap.read (MapserverError.construct raw dflt q) 0).map MapserverError.length =
        some (q.length % UINT_RANGE) ∧
    (q.length < UINT_RANGE →
      (Heap.read (MapserverError.construct raw dflt q) 0).map MapserverError.length =
        some q.length) ∧
    ∀ (k : Nat) (r : errorObj), q[k]? = some r →
      ∃ o, MapserverError.nthNode (MapserverError.construct raw dflt q) k (some 0) = some o ∧
        o.code = r.code ∧ o.routine = r.routine ∧ o.message = r.message ∧
        o.isReported = r.isreported ∧ (o.next = none ↔ k + 1 = q.length) := by
  refine ⟨MapserverError.construct_length raw dflt q, ?_, ?_⟩
  · intro hN
    rw [MapserverError.construct_length, Nat.mod_eq_of_lt hN]
  · intro k r hr
    cases q with
    | nil => simp at hr
    | cons e rest =>
      have hnth := MapserverError.nthNode_chainFrom dflt rest e []
        { raw with length := (rest.length + 1) % UINT_RANGE } k
      simp only [List.nil_append, List.length_nil, hr, Option.map_some'] at hnth
      rw [MapserverError.construct_cons]
      refine ⟨_, hnth, rfl, rfl, rfl, rfl, ?_⟩
      have hk : k < rest.length + 1 := by
        have := (List.getElem?_eq_some_iff.mp hr).1
        simpa using this
      simp only [List.length_cons]
      split <;> simp <;> omega

/-- C6, witness: the amended statement at the two-record scenario queue: the head has
`length = 2`, the two objects hold the two records, and the second one ends the chain. -/
theorem C6_witness_scenario :
    scenarioQueue.length < UINT_RANGE ∧
    (Heap.read (MapserverError.construct sampleObject sampleObject scenarioQueue) 0).map
        MapserverError.length = some 2 ∧
    ∀ (k : Nat) (r : errorObj), scenarioQueue[k]? = some r →
      ∃ o, MapserverError.nthNode
          (MapserverError.construct sampleObject sampleObject scenarioQueue) k (some 0) = some o ∧
        o.code = r.code ∧ o.routine = r.routine ∧ o.message = r.message ∧
        o.isReported = r.isreported ∧ (o.next = none ↔ k + 1 = scenarioQueue.length) :=
  ⟨by decide,
    (C6_captured_chain sampleObject sampleObject scenarioQueue).2.1 (by decide),
    (C6_captured_chain sampleObject sampleObject scenarioQueue).2.2⟩

/-- C6, counterexample: for a queue of `2^32` records the `length` member of the captured head
is `0`, not `2^32`: `length++` is arithmetic on an `unsigned int`. -/
theorem C6_counterexample_length_wraps :
    (Heap.read (MapserverError.construct sampleObject sampleObject
        (List.replicate 4294967296 scenarioFirst)) 0).map MapserverError.length = some 0 ∧
    (Heap.read (MapserverError.construct sampleObject sampleObject
        (List.replicate 4294967296 scenarioFirst)) 0).map MapserverError.length ≠
      some (List.replicate 4294967296 scenarioFirst).length := by
  rw [MapserverError.construct_length, List.length_replicate]
  constructor
  · rfl
  · decide

/-! ## The registry (C9, C10) -/

/-- C9, amended: no conversion tests whether `Init` has run and none returns a "registry not
initialized" failure: `Init` is a precondition of every conversion.  `ToV8Error` and `toV8Error`
return a value only when the handles they pass to `Set` are non-empty, which they are after
`Init` and are not at program start, so only if `Init` has run; the value returned is then a
normal `Error` object, and after `Init` the converter returns one for every record. -/
theorem C9_conversion_returns_only_after_Init (cat : Int → String) (reg s : Registry)
    (error : MapserverError) (h : Heap) :
    (∀ v, MapserverError.ToV8Error cat reg error = some v →
      reg.converterReady ∧ v.isError = true) ∧
    (∀ v, MapserverError.toV8Error cat reg h = some v →
      reg.converterReady ∧ reg.errorStack_symbol ≠ none ∧ v.isError = true) ∧
    (∃ v, MapserverError.ToV8Error cat (MapserverError.Init s) error = some v ∧
      v.isError = true) ∧
    (MapserverError.Init s).converterReady ∧
    ¬ Registry.start.converterReady :=
  ⟨fun v hv => MapserverError.ToV8Error_some cat reg error v hv,
    fun v hv => MapserverError.toV8Error_some cat reg h v hv,
    ⟨_, MapserverError.ToV8Error_Init cat s error, rfl⟩,
    ⟨by simp [MapserverError.Init, NODE_PSYMBOL], by simp [MapserverError.Init, NODE_PSYMBOL],
      by simp [MapserverError.Init, NODE_PSYMBOL], by simp [MapserverError.Init, NODE_PSYMBOL],
      by simp [MapserverError.Init, NODE_PSYMBOL], by simp [MapserverError.Init, NODE_PSYMBOL]⟩,
    fun hready => hready.1 rfl⟩

/-- C9, witness: after one `Init` from the start state the converter returns an `Error` object
for the sample object, and the six handles it uses are non-empty. -/
theorem C9_witness_after_Init :
    (∃ v, MapserverError.ToV8Error categoryFor (MapserverError.Init Registry.start)
        sampleObject = some v) ∧
    ∀ v, MapserverError.ToV8Error categoryFor (MapserverError.Init Registry.start)
        sampleObject = some v →
      (MapserverError.Init Registry.start).converterReady ∧ v.isError = true :=
  ⟨⟨_, MapserverError.ToV8Error_Init categoryFor Registry.start sampleObject⟩,
    (C9_conversion_returns_only_after_Init categoryFor (MapserverError.Init Registry.start)
      Registry.start sampleObject []).1⟩

/-- C9, counterexample: in the state in which `Init` has never run, `ToV8Error` returns nothing
for the sample object and `toV8Error` returns nothing for the chain captured from the scenario
queue: the first `Set` is given empty handles and the process dies, so that no failure value is
returned either. -/
theorem C9_counterexample_conversion_before_Init :
    MapserverError.ToV8Error categoryFor Registry.start sampleObject = none ∧
    MapserverError.toV8Error categoryFor Registry.start
      (MapserverError.construct sampleObject sampleObject scenarioQueue) = none ∧
    ¬ ∃ failure, MapserverError.ToV8Error categoryFor Registry.start sampleObject =
      some failure :=
  ⟨rfl, MapserverError.toV8Error_start _ _, by
    rintro ⟨failure, hf⟩
    rw [MapserverError.ToV8Error_start] at hf
    exact Option.noConfusion hf⟩

/-- C10, amended: the seven names held by the registry after `Init` do not depend on the state
before it, so that a second `Init` leaves the same seven names; but every invocation assigns all
seven members anew, creating seven more persistent handles. -/
theorem C10_Init_reassigns_same_names (s : Registry) :
    { MapserverError.Init (MapserverError.Init s) with persistentHandles := 0 } =
      { MapserverError.Init s with persistentHandles := 0 } ∧
    (MapserverError.Init (MapserverError.Init s)).persistentHandles =
      (MapserverError.Init s).persistentHandles + 7 ∧
    (MapserverError.Init s).persistentHandles = s.persistentHandles + 7 := by
  refine ⟨rfl, rfl, rfl⟩

/-- C10, counterexample: run from the start state, `Init` twice does not give the state of `Init`
once: the second invocation has created seven more persistent handles (14, not 7). -/
theorem C10_counterexample_second_Init :
    MapserverError.Init (MapserverError.Init Registry.start) ≠
      MapserverError.Init Registry.start ∧
    (MapserverError.Init (MapserverError.Init Registry.start)).persistentHandles = 14 ∧
    (MapserverError.Init Registry.start).persistentHandles = 7 := by
  decide

/-! ## The allocated size and the writes of the export loop (C5, C15) -/

theorem MapserverError.stackLoop_eq_foldl (cat : Int → String) (reg : Registry) (h : Heap)
    (fuel : Nat) :
    ∀ (p : Option Nat) (i : Nat) (errorStack : List V8Value),
      MapserverError.stackLoop cat reg h fuel p i errorStack =
        (MapserverError.stackWrites cat reg h fuel p i).map
          (fun writes => writes.foldl (fun array w => Array.Set array w.1 w.2) errorStack) := by
  induction fuel with
  | zero => intro p i errorStack; cases p <;> rfl
  | succ fuel ih =>
    intro p i errorStack
    cases p with
    | none => rfl
    | some a =>
      simp only [MapserverError.stackLoop, MapserverError.stackWrites]
      cases h.read a with
      | none => rfl
      | some node =>
        simp only
        cases MapserverError.ToV8Error cat reg node with
        | none => rfl
        | some exception =>
          simp only [ih]
          cases MapserverError.stackWrites cat reg h fuel node.next (uintIncr i) with
          | none => rfl
          | some writes => rfl

theorem MapserverError.stackWrites_chainFrom (cat : Int → String) (s : Registry)
    (dflt : MapserverError) (rest : List errorObj) :
    ∀ (e : errorObj) (front : Heap) (c : MapserverError) (i fuel : Nat),
      rest.length + 1 ≤ fuel → i + rest.length + 1 < UINT_RANGE →
      MapserverError.stackWrites cat (MapserverError.Init s)
          (front ++ MapserverError.chainFrom dflt c front.length e rest) fuel
          (some front.length) i =
        some (List.zip (List.range' i (rest.length + 1)) ((e :: rest).map
          (fun r => MapserverError.converted cat (MapserverError.ofRecord r none 0)))) := by
  induction rest with
  | nil =>
    intro e front c i fuel hfuel hi
    obtain ⟨fuel, rfl⟩ : ∃ f, fuel = f + 1 := ⟨fuel - 1, by simp at hfuel; omega⟩
    simp [MapserverError.chainFrom, MapserverError.stackWrites, Heap.read_append_length,
      MapserverError.ToV8Error_Init, MapserverError.converted_copyFields]
  | cons e2 rest ih =>
    intro e front c i fuel hfuel hi
    obtain ⟨fuel, rfl⟩ : ∃ f, fuel = f + 1 := ⟨fuel - 1, by simp at hfuel; omega⟩
    simp only [List.length_cons] at hfuel hi
    have hincr : uintIncr i = i + 1 := by
      simp only [uintIncr]; exact Nat.mod_eq_of_lt (by omega)
    have ih' := ih e2
      (front ++ [{ MapserverError.copyFields e c with next := some (front.length + 1) }]) dflt
      (i + 1) fuel (by omega) (by omega)
    simp only [List.length_append, List.length_singleton, List.append_assoc,
      List.singleton_append] at ih'
    simp only [MapserverError.chainFrom, MapserverError.stackWrites, Heap.read_append_length,
      MapserverError.ToV8Error_Init, MapserverError.converted_copyFields, hincr, ih',
      List.length_cons]
    simp [List.range'_succ]

/-- The loop makes at least one write when it is entered at an object. -/
theorem MapserverError.stackWrites_ne_nil (cat : Int → String) (reg : Registry) (h : Heap)
    (fuel a i : Nat) (writes : List (Nat × V8Value))
    (hw : MapserverError.stackWrites cat reg h fuel (some a) i = some writes) :
    ∃ v tail, writes = (i, v) :: tail := by
  cases fuel with
  | zero => exact Option.noConfusion hw
  | succ fuel =>
    simp only [MapserverError.stackWrites] at hw
    cases hr : h.read a with
    | none =>
      simp only [hr] at hw
      exact Option.noConfusion hw
    | some node =>
      simp only [hr] at hw
      cases hc : MapserverError.ToV8Error cat reg node with
      | none =>
        simp only [hc] at hw
        exact Option.noConfusion hw
      | some exception =>
        simp only [hc] at hw
        cases hs : MapserverError.stackWrites cat reg h fuel node.next (uintIncr i) with
        | none =>
          simp only [hs] at hw
          exact Option.noConfusion hw
        | some tail =>
          simp only [hs, Option.some.injEq] at hw
          exact ⟨exception, tail, hw.symm⟩

/-- The array exported by `toV8Error` after `Init` is the allocated array on which the writes
of the loop were made in order. -/
theorem MapserverError.toV8Error_eq_writes (cat : Int → String) (s : Registry) (h : Heap)
    (self : MapserverError) (hself : h.read 0 = some self) :
    MapserverError.toV8Error cat (MapserverError.Init s) h =
      (MapserverError.toV8ErrorWrites cat (MapserverError.Init s) h).map (fun sw =>
        MapserverError.exported cat self
          (sw.2.foldl (fun array w => Array.Set array w.1 w.2)
            (Array.New (uintToInt (uintDecr self.length))))) := by
  simp only [MapserverError.toV8Error, MapserverError.toV8ErrorWrites, hself,
    MapserverError.stackLoop_eq_foldl, MapserverError.ToV8Error_Init]
  cases MapserverError.stackWrites cat (MapserverError.Init s) h h.length self.next 0 with
  | none => rfl
  | some writes => rfl

/-- What `toV8ErrorWrites` reports as the size is the length of `Array::New(length-1)` for the
`length` of the head. -/
theorem MapserverError.toV8ErrorWrites_size (cat : Int → String) (reg : Registry) (h : Heap)
    (size : Nat) (writes : List (Nat × V8Value))
    (hw : MapserverError.toV8ErrorWrites cat reg h = some (size, writes)) :
    (h.read 0).map (fun self => (uintToInt (uintDecr self.length)).toNat) = some size ∧
    ∃ self, h.read 0 = some self ∧
      MapserverError.stackWrites cat reg h h.length self.next 0 = some writes := by
  unfold MapserverError.toV8ErrorWrites at hw
  cases hr : h.read 0 with
  | none =>
    simp only [hr] at hw
    exact Option.noConfusion hw
  | some self =>
    simp only [hr] at hw
    cases hs : MapserverError.stackWrites cat reg h h.length self.next 0 with
    | none =>
      simp only [hs] at hw
      exact Option.noConfusion hw
    | some ws =>
      simp only [hs, Option.some.injEq, Prod.mk.injEq, Array.length_New] at hw
      exact ⟨by simp only [Option.map_some', hw.1], self, rfl, by rw [hs, hw.2]⟩

/-- The allocated size and the writes of the export of a chain captured, after `Init`, from a
non-empty queue of fewer than `2^32` records. -/
theorem MapserverError.toV8ErrorWrites_construct (cat : Int → String) (s : Registry)
    (raw dflt : MapserverError) (e : errorObj) (rest : List errorObj)
    (hN : rest.length + 1 < UINT_RANGE) :
    MapserverError.toV8ErrorWrites cat (MapserverError.Init s)
        (MapserverError.construct raw dflt (e :: rest)) =
      some ((uintToInt rest.length).toNat, List.zip (List.range' 0 rest.length) (rest.map
        (fun r => MapserverError.converted cat (MapserverError.ofRecord r none 0)))) := by
  rw [MapserverError.construct_cons]
  have hmod : (rest.length + 1) % UINT_RANGE = rest.length + 1 := Nat.mod_eq_of_lt hN
  have hdecr : uintDecr (rest.length + 1) = rest.length :=
    uintDecr_of_pos (rest.length + 1) (by omega) hN
  cases rest with
  | nil =>
    simp only [List.length_nil, Nat.zero_add] at hmod hdecr
    simp only [MapserverError.toV8ErrorWrites, MapserverError.chainFrom, Heap.read,
      MapserverError.copyFields, List.length_nil, Nat.zero_add, hmod, hdecr,
      MapserverError.stackWrites, Array.length_New]
    rfl
  | cons e2 rest =>
    have hw := MapserverError.stackWrites_chainFrom cat s dflt rest e2
      [{ MapserverError.copyFields e { raw with length := (rest.length + 1 + 1) % UINT_RANGE }
          with next := some (0 + 1) }] dflt 0 (rest.length + 1 + 1) (by omega)
      (by simp only [List.length_cons] at hN; omega)
    simp only [List.length_singleton, List.singleton_append, Nat.zero_add] at hw
    simp only [List.length_cons] at hmod hdecr
    simp only [MapserverError.copyFields, hmod] at hw
    simp only [MapserverError.toV8ErrorWrites, MapserverError.chainFrom, Heap.read,
      List.length_cons, MapserverError.length_chainFrom, MapserverError.copyFields, hmod, hdecr,
      Nat.zero_add, hw, Array.length_New]

/-- The allocated size and the writes of the export of the chain captured from the empty queue:
size `0`, no write. -/
theorem MapserverError.toV8ErrorWrites_construct_nil (cat : Int → String) (reg : Registry)
    (raw dflt : MapserverError) :
    MapserverError.toV8ErrorWrites cat reg (MapserverError.construct raw dflt []) =
      some (0, []) := by
  rw [MapserverError.construct_nil]
  have hzero : (uintToInt (uintDecr 0)).toNat = 0 := by decide
  simp only [MapserverError.toV8ErrorWrites, Heap.read, MapserverError.stackWrites,
    Array.length_New, hzero]

/-- C5, amended: for every chain captured from a queue of length `N` with `0 ≤ N ≤ 2^31`, the
array that `toV8Error` allocates has size `max(N-1, 0)`; for `N = 0` the size is `0`, not
`(0-1) mod 2^32`: the wrapped value of `length-1` reaches `Array::New(int)` as `-1`. -/
theorem C5_allocated_size (cat : Int → String) (s : Registry) (raw dflt : MapserverError)
    (q : List errorObj) (hN : q.length ≤ INT_RANGE) :
    ∃ writes,
      MapserverError.toV8ErrorWrites cat (MapserverError.Init s)
        (MapserverError.construct raw dflt q) = some (max (q.length - 1) 0, writes) := by
  cases q with
  | nil => exact ⟨[], MapserverError.toV8ErrorWrites_construct_nil cat _ raw dflt⟩
  | cons e rest =>
    simp only [List.length_cons, INT_RANGE] at hN
    have hw := MapserverError.toV8ErrorWrites_construct cat s raw dflt e rest
      (by simp only [UINT_RANGE]; omega)
    rw [uintToInt_toNat_of_lt rest.length (by simp only [INT_RANGE]; omega)] at hw
    exact ⟨_, by simpa using hw⟩

/-- C5, witness: the amended statement at the empty queue: the allocated size is `0`. -/
theorem C5_witness_empty_queue :
    ([] : List errorObj).length ≤ INT_RANGE ∧
    ∃ writes,
      MapserverError.toV8ErrorWrites categoryFor (MapserverError.Init Registry.start)
        (MapserverError.construct sampleObject sampleObject []) =
        some (max (([] : List errorObj).length - 1) 0, writes) :=
  ⟨by decide, C5_allocated_size categoryFor Registry.start sampleObject sampleObject []
    (by decide)⟩

/-- C5, counterexample: for a queue of `2^31 + 1` records the allocated size is not
`max(N-1, 0) = 2^31`: `length-1 = 2^31` is above `INT_MAX` and reaches `Array::New(int)` as a
negative number, for which the array has size `0`. -/
theorem C5_counterexample_size_above_int_max :
    ¬ ∃ writes,
      MapserverError.toV8ErrorWrites categoryFor (MapserverError.Init Registry.start)
        (MapserverError.construct sampleObject sampleObject
          (List.replicate 2147483649 scenarioFirst)) =
        some (max ((List.replicate 2147483649 scenarioFirst).length - 1) 0, writes) := by
  rintro ⟨writes, h⟩
  have hsize := (MapserverError.toV8ErrorWrites_size _ _ _ _ _ h).1
  have hlen := MapserverError.construct_length sampleObject sampleObject
    (List.replicate 2147483649 scenarioFirst)
  rw [List.length_replicate] at hsize hlen
  generalize MapserverError.construct sampleObject sampleObject
    (List.replicate 2147483649 scenarioFirst) = heap at hsize hlen
  cases hr : Heap.read heap 0 with
  | none =>
    rw [hr] at hlen
    exact Option.noConfusion hlen
  | some self =>
    rw [hr] at hsize hlen
    simp only [Option.map_some', Option.some.injEq] at hsize hlen
    have h1 : self.length = 2147483649 := by rw [hlen]; decide
    rw [h1] at hsize
    have h2 : (uintToInt (uintDecr 2147483649)).toNat = 0 := by decide
    rw [h2] at hsize
    omega

theorem uintToInt_of_lt (x : Nat) (hx : x < INT_RANGE) : uintToInt x = Int.ofNat x := by
  simp [uintToInt, hx]

/-- C15, amended: for every chain captured from a queue of length `N` with `1 ≤ N ≤ 2^31`,
`toV8Error` allocates the array with size `N - 1` and its loop writes it at the indices
`0, 1, ..., N-2`, in that order and each once; every written index is below the allocated size,
and the exported array, which is the allocated array after those writes, has `N - 1` entries
none of which is an unwritten slot. -/
theorem C15_loop_writes_each_index_once (cat : Int → String) (s : Registry)
    (raw dflt : MapserverError) (e : errorObj) (rest : List errorObj)
    (hN : (e :: rest).length ≤ INT_RANGE) :
    ∃ writes,
      MapserverError.toV8ErrorWrites cat (MapserverError.Init s)
        (MapserverError.construct raw dflt (e :: rest)) =
        some ((e :: rest).length - 1, writes) ∧
      writes.map Prod.fst = List.range ((e :: rest).length - 1) ∧
      (writes.map Prod.fst).Pairwise (fun i j => i < j) ∧
      (∀ w ∈ writes, w.1 < (e :: rest).length - 1) ∧
      ∃ v stack,
        MapserverError.toV8Error cat (MapserverError.Init s)
          (MapserverError.construct raw dflt (e :: rest)) = some v ∧
        v.Get "errorStack" = some (V8Value.array stack) ∧
        stack = writes.foldl (fun array w => Array.Set array w.1 w.2)
          (Array.New (Int.ofNat ((e :: rest).length - 1))) ∧
        stack.length = (e :: rest).length - 1 ∧
        ∀ x ∈ stack, x ≠ V8Value.undefined := by
  simp only [List.length_cons, INT_RANGE] at hN
  have hN' : rest.length + 1 < UINT_RANGE := by simp only [UINT_RANGE]; omega
  have hint : rest.length < INT_RANGE := by simp only [INT_RANGE]; omega
  have hw := MapserverError.toV8ErrorWrites_construct cat s raw dflt e rest hN'
  rw [uintToInt_toNat_of_lt rest.length hint] at hw
  have hfst : (List.zip (List.range' 0 rest.length) (rest.map
      (fun r => MapserverError.converted cat (MapserverError.ofRecord r none 0)))).map
        Prod.fst = List.range rest.length := by
    rw [List.map_fst_zip _ _ (by simp), List.range_eq_range']
  have hv := MapserverError.toV8Error_construct cat s raw dflt e rest hN'
  have hlen := MapserverError.construct_length raw dflt (e :: rest)
  cases hself : Heap.read (MapserverError.construct raw dflt (e :: rest)) 0 with
  | none =>
    rw [hself] at hlen
    exact Option.noConfusion hlen
  | some self =>
    rw [hself] at hlen
    simp only [Option.map_some', Option.some.injEq, List.length_cons,
      Nat.mod_eq_of_lt hN'] at hlen
    have hv2 := MapserverError.toV8Error_eq_writes cat s _ self hself
    rw [hw, Option.map_some', hv, hlen, uintDecr_of_pos (rest.length + 1) (by omega) hN',
      Nat.add_sub_cancel, uintToInt_of_lt rest.length hint] at hv2
    have hget := congrArg (fun o : Option V8Value => o.bind (fun v => v.Get "errorStack")) hv2
    simp only [Option.some_bind, MapserverError.Get_exported_errorStack, Option.some.injEq,
      V8Value.array.injEq] at hget
    simp only [List.length_cons, Nat.add_sub_cancel]
    refine ⟨_, hw, hfst, ?_, ?_, _, _, hv, MapserverError.Get_exported_errorStack _ _ _, hget,
      by simp, ?_⟩
    · rw [hfst]
      exact List.pairwise_lt_range _
    · intro w hwm
      have : w.1 ∈ List.range rest.length := by
        rw [← hfst]
        exact List.mem_map_of_mem _ hwm
      exact List.mem_range.mp this
    · intro x hx
      obtain ⟨r, _, hr⟩ := List.mem_map.mp hx
      rw [← hr]
      exact fun h => V8Value.noConfusion h

/-- C15, witness: the amended statement at the two-record scenario queue: size `1`, one write,
at index `0`. -/
theorem C15_witness_scenario :
    (scenarioFirst :: [scenarioSecond]).length ≤ INT_RANGE ∧
    ∃ writes,
      MapserverError.toV8ErrorWrites categoryFor (MapserverError.Init Registry.start)
        (MapserverError.construct sampleObject sampleObject
          (scenarioFirst :: [scenarioSecond])) =
        some ((scenarioFirst :: [scenarioSecond]).length - 1, writes) ∧
      writes.map Prod.fst = List.range ((scenarioFirst :: [scenarioSecond]).length - 1) ∧
      (writes.map Prod.fst).Pairwise (fun i j => i < j) ∧
      (∀ w ∈ writes, w.1 < (scenarioFirst :: [scenarioSecond]).length - 1) ∧
      ∃ v stack,
        MapserverError.toV8Error categoryFor (MapserverError.Init Registry.start)
          (MapserverError.construct sampleObject sampleObject
            (scenarioFirst :: [scenarioSecond])) = some v ∧
        v.Get "errorStack" = some (V8Value.array stack) ∧
        stack = writes.foldl (fun array w => Array.Set array w.1 w.2)
          (Array.New (Int.ofNat ((scenarioFirst :: [scenarioSecond]).length - 1))) ∧
        stack.length = (scenarioFirst :: [scenarioSecond]).length - 1 ∧
        ∀ x ∈ stack, x ≠ V8Value.undefined :=
  ⟨by decide,
    C15_loop_writes_each_index_once categoryFor Registry.start sampleObject sampleObject
      scenarioFirst [scenarioSecond] (by decide)⟩

theorem MapserverError.chainFrom_cons (dflt c : MapserverError) (base : Nat) (e e2 : errorObj)
    (rest : List errorObj) :
    MapserverError.chainFrom dflt c base e (e2 :: rest) =
      { MapserverError.copyFields e c with next := some (base + 1) } ::
        MapserverError.chainFrom dflt dflt (base + 1) e2 rest := rfl

/-- For a queue of more than `2^31` and fewer than `2^32` records, the first write of the loop
is not below the allocated size, which is `0`. -/
theorem MapserverError.first_write_not_below_size (cat : Int → String) (reg : Registry)
    (raw dflt : MapserverError) (e e2 : errorObj) (tail : List errorObj)
    (h1 : INT_RANGE ≤ tail.length + 1) (h2 : tail.length + 2 < UINT_RANGE) :
    ¬ ∃ size writes,
      MapserverError.toV8ErrorWrites cat reg
        (MapserverError.construct raw dflt (e :: e2 :: tail)) = some (size, writes) ∧
      ∀ w ∈ writes, w.1 < size := by
  rintro ⟨size, writes, hw, hall⟩
  obtain ⟨hsize, self, hself, hws⟩ := MapserverError.toV8ErrorWrites_size _ _ _ _ _ hw
  rw [MapserverError.construct_cons, MapserverError.chainFrom_cons] at hself hsize hws
  simp only [Heap.read, Option.some.injEq] at hself
  simp only [Heap.read, Option.map_some', Option.some.injEq, MapserverError.copyFields,
    List.length_cons, Nat.mod_eq_of_lt h2] at hsize
  have hd : uintDecr (tail.length + 1 + 1) = tail.length + 1 :=
    uintDecr_of_pos _ (by omega) h2
  rw [hd, uintToInt_toNat_of_ge _ h1 (by simp only [UINT_RANGE] at h2 ⊢; omega)] at hsize
  subst hself
  obtain ⟨v, rest, hwr⟩ := MapserverError.stackWrites_ne_nil _ _ _ _ _ _ _ hws
  have := hall (0, v) (by rw [hwr]; exact List.mem_cons_self _ _)
  omega

/-- C15, counterexample: for a queue of `2^31 + 1` records (two records followed by
`2^31 - 1` more) no run of `toV8Error` has every written index below the allocated size: the
size is `0`, `length-1 = 2^31` reaching `Array::New(int)` as a negative number, and the loop
writes at index `0`. -/
theorem C15_counterexample_queue_beyond_int :
    ¬ ∃ size writes,
      MapserverError.toV8ErrorWrites categoryFor (MapserverError.Init Registry.start)
        (MapserverError.construct sampleObject sampleObject
          (scenarioFirst :: scenarioFirst :: List.replicate 2147483647 scenarioFirst)) =
        some (size, writes) ∧
      ∀ w ∈ writes, w.1 < size :=
  MapserverError.first_write_not_below_size categoryFor (MapserverError.Init Registry.start)
    sampleObject sampleObject scenarioFirst scenarioFirst
    (List.replicate 2147483647 scenarioFirst)
    (by rw [List.length_replicate]; decide) (by rw [List.length_replicate]; decide)

/-! ## What the export leaves in the world (C11, C12) -/

theorem MapserverError.stackLoopW_eq (cat : Int → String) (fuel : Nat) :
    ∀ (p : Option Nat) (i : Nat) (errorStack : List V8Value) (w : World),
      MapserverError.stackLoopW cat fuel p i errorStack w =
        (MapserverError.stackLoop cat w.registry w.heap fuel p i errorStack).map
          (fun out => (out, w)) := by
  induction fuel with
  | zero =>
    intro p i errorStack w
    cases p <;> rfl
  | succ fuel ih =>
    intro p i errorStack w
    cases p with
    | none => rfl
    | some a =>
      simp only [MapserverError.stackLoopW, MapserverError.stackLoop,
        MapserverError.ToV8ErrorW]
      cases hr : w.heap.read a with
      | none => rfl
      | some node =>
        simp only
        cases MapserverError.ToV8Error cat w.registry node with
        | none => rfl
        | some exception => simp only [hr, ih]

theorem MapserverError.toV8ErrorW_eq (cat : Int → String) (w : World) :
    MapserverError.toV8ErrorW cat w =
      (MapserverError.toV8Error cat w.registry w.heap).map (fun v => (v, w)) := by
  simp only [MapserverError.toV8ErrorW, MapserverError.toV8Error,
    MapserverError.stackLoopW_eq, MapserverError.ToV8ErrorW]
  cases hr : w.heap.read 0 with
  | none => rfl
  | some self =>
    simp only
    cases MapserverError.stackLoop cat w.registry w.heap w.heap.length self.next 0
        (Array.New (uintToInt (uintDecr self.length))) with
    | none => rfl
    | some out =>
      simp only [Option.map_some', hr]
      cases MapserverError.ToV8Error cat w.registry self with
      | none => rfl
      | some result =>
        simp only
        cases result.Set w.registry.errorStack_symbol (V8Value.array out) with
        | none => rfl
        | some v => rfl

/-- Capture followed by export, after `Init`, returns a value for every queue, the empty one
included. -/
theorem MapserverError.toV8Error_construct_some (cat : Int → String) (s : Registry)
    (raw dflt : MapserverError) (q : List errorObj) :
    ∃ v, MapserverError.toV8Error cat (MapserverError.Init s)
      (MapserverError.construct raw dflt q) = some v := by
  obtain ⟨primary, stack, hv, _⟩ :=
    MapserverError.toV8Error_construct_shape cat s raw dflt q
  exact ⟨_, hv⟩

/-- C11: for every captured chain, once `Init` has run and whatever the foreign queue holds,
`toV8Error` returns a value and leaves the world as it found it: the members of every object of
the chain (`code`, `routine`, `message`, `isReported`, `next`, and the `length` of the head) and
the seven statics are unchanged, so that a second export, run on the world the first one left,
returns the same value. -/
theorem C11_export_leaves_chain_and_registry (cat : Int → String) (foreign : List errorObj)
    (s : Registry) (raw dflt : MapserverError) (q : List errorObj) :
    ∃ v,
      MapserverError.toV8ErrorW cat
          { foreign := foreign, registry := MapserverError.Init s,
            heap := MapserverError.construct raw dflt q } =
        some (v, { foreign := foreign, registry := MapserverError.Init s,
                   heap := MapserverError.construct raw dflt q }) ∧
      (MapserverError.toV8ErrorW cat
          { foreign := foreign, registry := MapserverError.Init s,
            heap := MapserverError.construct raw dflt q }).bind
          (fun first => MapserverError.toV8ErrorW cat first.2) =
        some (v, { foreign := foreign, registry := MapserverError.Init s,
                   heap := MapserverError.construct raw dflt q }) := by
  obtain ⟨v, hv⟩ := MapserverError.toV8Error_construct_some cat s raw dflt q
  have hw : MapserverError.toV8ErrorW cat
      { foreign := foreign, registry := MapserverError.Init s,
        heap := MapserverError.construct raw dflt q } =
      some (v, { foreign := foreign, registry := MapserverError.Init s,
                 heap := MapserverError.construct raw dflt q }) := by
    rw [MapserverError.toV8ErrorW_eq]
    simp only [hv, Option.map_some']
  exact ⟨v, hw, by rw [hw, Option.some_bind, hw]⟩

theorem World.foldl_foreignStep (changes : List ForeignChange) :
    ∀ (w : World),
      (changes.foldl (fun w change => World.foreignStep change w) w).heap = w.heap ∧
      (changes.foldl (fun w change => World.foreignStep change w) w).registry = w.registry ∧
      (changes.foldl (fun w change => World.foreignStep change w) w).foreign =
        changes.foldl (fun q change => change.apply q) w.foreign := by
  induction changes with
  | nil => intro w; exact ⟨rfl, rfl, rfl⟩
  | cons change changes ih =>
    intro w
    simp only [List.foldl_cons]
    obtain ⟨h1, h2, h3⟩ := ih (World.foreignStep change w)
    exact ⟨h1, h2, h3⟩

/-- The `k`-th object of a captured chain holds the scalar members of the `k`-th record of the
queue it was captured from. -/
theorem MapserverError.nthNode_construct (raw dflt : MapserverError) (q : List errorObj)
    (k : Nat) (r : errorObj) (hr : q[k]? = some r) :
    ∃ o, MapserverError.nthNode (MapserverError.construct raw dflt q) k (some 0) = some o ∧
      o.code = r.code ∧ o.routine = r.routine ∧ o.message = r.message ∧
      o.isReported = r.isreported := by
  cases q with
  | nil => simp at hr
  | cons e rest =>
    have hnth := MapserverError.nthNode_chainFrom dflt rest e []
      { raw with length := (rest.length + 1) % UINT_RANGE } k
    simp only [List.nil_append, List.length_nil, hr, Option.map_some'] at hnth
    rw [MapserverError.construct_cons]
    exact ⟨_, hnth, rfl, rfl, rfl, rfl⟩

/-- C12: the captured chain is a snapshot.  Capture the foreign queue `q` (after `Init`), then
let the foreign library make any sequence of changes to the nodes of its queue (`code`,
`routine`, `message`, `isreported` or `next` of any node).  The queue is then the changed one,
but the `k`-th object of the chain still holds the `code`, `routine`, `message` and `isReported`
that record `k` of `q` had when it was captured, the head still counts the records of `q`, and
the export returns the value it returns without the changes, which is the export of the chain
captured from `q`. -/
theorem C12_captured_chain_is_a_snapshot (cat : Int → String) (s : Registry)
    (raw dflt : MapserverError) (q : List errorObj) (heap : Heap)
    (changes : List ForeignChange) :
    (changes.foldl (fun w change => World.foreignStep change w)
        (World.capture raw dflt
          { foreign := q, registry := MapserverError.Init s, heap := heap })).foreign =
      changes.foldl (fun q change => change.apply q) q ∧
    (∀ (k : Nat) (r : errorObj), q[k]? = some r →
      ∃ o, MapserverError.nthNode
          (changes.foldl (fun w change => World.foreignStep change w)
            (World.capture raw dflt
              { foreign := q, registry := MapserverError.Init s, heap := heap })).heap
          k (some 0) = some o ∧
        o.code = r.code ∧ o.routine = r.routine ∧ o.message = r.message ∧
        o.isReported = r.isreported) ∧
    (Heap.read
        (changes.foldl (fun w change => World.foreignStep change w)
          (World.capture raw dflt
            { foreign := q, registry := MapserverError.Init s, heap := heap })).heap 0).map
        MapserverError.length = some (q.length % UINT_RANGE) ∧
    ∃ v,
      MapserverError.toV8Error cat (MapserverError.Init s)
        (MapserverError.construct raw dflt q) = some v ∧
      (MapserverError.toV8ErrorW cat
        (World.capture raw dflt
          { foreign := q, registry := MapserverError.Init s, heap := heap })).map Prod.fst =
        some v ∧
      (MapserverError.toV8ErrorW cat
        (changes.foldl (fun w change => World.foreignStep change w)
          (World.capture raw dflt
            { foreign := q, registry := MapserverError.Init s, heap := heap }))).map
        Prod.fst = some v := by
  obtain ⟨h1, h2, h3⟩ := World.foldl_foreignStep changes
    (World.capture raw dflt { foreign := q, registry := MapserverError.Init s, heap := heap })
  have hheap : (World.capture raw dflt
      { foreign := q, registry := MapserverError.Init s, heap := heap }).heap =
      MapserverError.construct raw dflt q := rfl
  have hreg : (World.capture raw dflt
      { foreign := q, registry := MapserverError.Init s, heap := heap }).registry =
      MapserverError.Init s := rfl
  obtain ⟨v, hv⟩ := MapserverError.toV8Error_construct_some cat s raw dflt q
  refine ⟨h3, ?_, ?_, v, hv, ?_, ?_⟩
  · intro k r hr
    rw [h1, hheap]
    exact MapserverError.nthNode_construct raw dflt q k r hr
  · rw [h1, hheap]
    exact MapserverError.construct_length raw dflt q
  · rw [MapserverError.toV8ErrorW_eq, hheap, hreg, hv]
    rfl
  · rw [MapserverError.toV8ErrorW_eq, h1, h2, hheap, hreg, hv]
    rfl

/-- C12, witness: capture the scenario queue, then let the foreign library overwrite the message
of its first node.  The queue then has the new message, the export of the earlier capture still
has `"file not found"`, and a capture made after the change would export the new message. -/
theorem C12_witness_scenario :
    (ForeignChange.apply (ForeignChange.setMessage 0 "overwritten") scenarioQueue)[0]?.map
        errorObj.message = some "overwritten" ∧
    (∃ v,
      (MapserverError.toV8ErrorW categoryFor
        ([ForeignChange.setMessage 0 "overwritten"].foldl
          (fun w change => World.foreignStep change w)
          (World.capture sampleObject sampleObject
            { foreign := scenarioQueue, registry := MapserverError.Init Registry.start,
              heap := [] }))).map Prod.fst = some v ∧
      v.Get "message" = some (V8Value.string "file not found")) ∧
    ∃ v,
      MapserverError.toV8Error categoryFor (MapserverError.Init Registry.start)
        (MapserverError.construct sampleObject sampleObject
          (ForeignChange.apply (ForeignChange.setMessage 0 "overwritten") scenarioQueue)) =
        some v ∧
      v.Get "message" = some (V8Value.string "overwritten") := by
  obtain ⟨_, _, _, v, hv, _, hafter⟩ :=
    C12_captured_chain_is_a_snapshot categoryFor Registry.start sampleObject sampleObject
      scenarioQueue [] [ForeignChange.setMessage 0 "overwritten"]
  have hv' := MapserverError.toV8Error_construct categoryFor Registry.start sampleObject
    sampleObject scenarioFirst [scenarioSecond] (by decide)
  have hq : scenarioQueue = scenarioFirst :: [scenarioSecond] := rfl
  rw [hq, hv'] at hv
  refine ⟨by decide, ⟨v, hafter, ?_⟩, ?_⟩
  · rw [← Option.some.inj hv, MapserverError.Get_exported_of_ne _ _ _ _ (by decide)]
    simp [MapserverError.converted, V8Value.Get, MapserverError.ofRecord, scenarioFirst]
    exact fun h => absurd h (by decide)
  · have hq2 : ForeignChange.apply (ForeignChange.setMessage 0 "overwritten") scenarioQueue =
        { scenarioFirst with message := "overwritten" } :: [scenarioSecond] := rfl
    rw [hq2]
    refine ⟨_, MapserverError.toV8Error_construct categoryFor Registry.start sampleObject
      sampleObject _ [scenarioSecond] (by decide), ?_⟩
    rw [MapserverError.Get_exported_of_ne _ _ _ _ (by decide)]
    simp [MapserverError.converted, V8Value.Get, MapserverError.ofRecord]
    exact fun h => absurd h (by decide)

/-! ## The elements of the error stack (C13, C14, C16) -/

/-- C13: for every captured chain, the value returned by `toV8Error` carries an `errorStack`;
every entry of that stack which the loop wrote is what `ToV8Error` returns for one of the
records after the first, and no entry carries an `errorStack` (a slot never written holds no
value at all); `ToV8Error` itself never sets `errorStack` and does not depend on the `next` or
`length` of the record; and for `1 ≤ N < 2^32` the stack is, position by position, the
conversion of the records `1 .. N-1`, so that the primary record is not in it. -/
theorem C13_only_primary_carries_errorStack (cat : Int → String) (s : Registry)
    (raw dflt : MapserverError) (q : List errorObj) :
    ∃ v stack,
      MapserverError.toV8Error cat (MapserverError.Init s)
        (MapserverError.construct raw dflt q) = some v ∧
      v.Get "errorStack" = some (V8Value.array stack) ∧
      (∀ x ∈ stack, x.Get "errorStack" = none) ∧
      (∀ x ∈ stack, x = V8Value.undefined ∨
        ∃ r ∈ q.drop 1, MapserverError.ToV8Error cat (MapserverError.Init s)
          (MapserverError.ofRecord r none 0) = some x) ∧
      (∀ (error : MapserverError) (next : Option Nat) (length : Nat),
        (∃ c, MapserverError.ToV8Error cat (MapserverError.Init s) error = some c ∧
          c.Get "errorStack" = none) ∧
        MapserverError.ToV8Error cat (MapserverError.Init s)
            { error with next := next, length := length } =
          MapserverError.ToV8Error cat (MapserverError.Init s) error) ∧
      (1 ≤ q.length → q.length < UINT_RANGE →
        stack.map some = (q.drop 1).map (fun r =>
          MapserverError.ToV8Error cat (MapserverError.Init s)
            (MapserverError.ofRecord r none 0))) := by
  obtain ⟨primary, stack, hv, hmem⟩ :=
    MapserverError.toV8Error_construct_shape cat s raw dflt q
  refine ⟨_, stack, hv, MapserverError.Get_exported_errorStack _ _ _, ?_, ?_, ?_, ?_⟩
  · intro x hx
    rcases hmem x hx with h | ⟨r, _, h⟩
    · rw [h]; rfl
    · rw [h]; exact MapserverError.Get_converted_errorStack _ _
  · intro x hx
    rcases hmem x hx with h | ⟨r, hr, h⟩
    · exact Or.inl h
    · exact Or.inr ⟨r, hr, by rw [h, MapserverError.ToV8Error_Init]⟩
  · intro error next length
    exact ⟨⟨_, MapserverError.ToV8Error_Init cat s error,
        MapserverError.Get_converted_errorStack _ _⟩,
      MapserverError.ToV8Error_scalars _ _ _ _ rfl rfl rfl rfl⟩
  · intro h1 hN
    cases q with
    | nil => simp at h1
    | cons e rest =>
      have hv' := MapserverError.toV8Error_construct cat s raw dflt e rest hN
      rw [hv] at hv'
      have hget := congrArg (fun o : Option V8Value => o.bind (fun v => v.Get "errorStack")) hv'
      simp only [Option.some_bind, MapserverError.Get_exported_errorStack, Option.some.injEq,
        V8Value.array.injEq] at hget
      rw [hget]
      simp only [List.drop_succ_cons, List.drop_zero, List.map_map,
        MapserverError.ToV8Error_Init]
      rfl

/-- C13, witness: at the scenario queue the stack is the conversion of the second record alone,
and that element carries no `errorStack`. -/
theorem C13_witness_scenario :
    (1 ≤ scenarioQueue.length ∧ scenarioQueue.length < UINT_RANGE) ∧
    ∃ v stack,
      MapserverError.toV8Error categoryFor (MapserverError.Init Registry.start)
        (MapserverError.construct sampleObject sampleObject scenarioQueue) = some v ∧
      v.Get "errorStack" = some (V8Value.array stack) ∧
      (∀ x ∈ stack, x.Get "errorStack" = none) ∧
      stack.map some = [MapserverError.ToV8Error categoryFor
        (MapserverError.Init Registry.start) (MapserverError.ofRecord scenarioSecond none 0)] := by
  obtain ⟨v, stack, hv, hs, hnone, _, _, hpos⟩ :=
    C13_only_primary_carries_errorStack categoryFor Registry.start sampleObject sampleObject
      scenarioQueue
  exact ⟨⟨by decide, by decide⟩, v, stack, hv, hs, hnone, hpos (by decide) (by decide)⟩

/-- C14: for every chain captured from a queue `e :: rest` (length `N ≥ 1`), the value returned
by `toV8Error`, with its `errorStack` removed, is the value `ToV8Error` returns for the object
holding record 0, whatever the `next` and `length` of that object; in particular `name`,
`message`, `code`, `category`, `routine` and `isReported` of the primary are those of that
conversion. -/
theorem C14_primary_is_converted_first_record (cat : Int → String) (s : Registry)
    (raw dflt : MapserverError) (e : errorObj) (rest : List errorObj) (next : Option Nat)
    (length : Nat) :
    ∃ v c,
      MapserverError.toV8Error cat (MapserverError.Init s)
        (MapserverError.construct raw dflt (e :: rest)) = some v ∧
      MapserverError.ToV8Error cat (MapserverError.Init s)
        (MapserverError.ofRecord e next length) = some c ∧
      v.Delete "errorStack" = c ∧
      v.Get "name" = c.Get "name" ∧
      v.Get "message" = c.Get "message" ∧
      v.Get "code" = c.Get "code" ∧
      v.Get "category" = c.Get "category" ∧
      v.Get "routine" = c.Get "routine" ∧
      v.Get "isReported" = c.Get "isReported" := by
  obtain ⟨stack, hv, _⟩ := MapserverError.toV8Error_construct_returns cat s raw dflt e rest
  have hsc : MapserverError.converted cat (MapserverError.ofRecord e next length) =
      MapserverError.converted cat (MapserverError.ofRecord e none 0) :=
    MapserverError.converted_scalars _ _ _ rfl rfl rfl rfl
  refine ⟨_, _, hv, MapserverError.ToV8Error_Init cat s _, ?_, ?_, ?_, ?_, ?_, ?_, ?_⟩
  · rw [hsc]; exact MapserverError.Delete_exported _ _ _
  all_goals rw [hsc]; exact MapserverError.Get_exported_of_ne _ _ _ _ (by decide)

/-- C16: assuming the category lookup returns a non-empty string for every code, the `message`
of every value that `ToV8Error` returns is non-empty, also for a record with an empty message;
hence, for every captured chain, so are the `message` of the primary returned by `toV8Error`
and that of every entry of its `errorStack` that the loop wrote. -/
theorem C16_message_never_empty (cat : Int → String) (hcat : ∀ code, cat code ≠ "")
    (s : Registry) :
    (∀ error : MapserverError, ∃ v m,
      MapserverError.ToV8Error cat (MapserverError.Init s) error = some v ∧
      v.Get "message" = some (V8Value.string m) ∧ m ≠ "") ∧
    ∀ (raw dflt : MapserverError) (q : List errorObj), ∃ v stack,
      MapserverError.toV8Error cat (MapserverError.Init s)
        (MapserverError.construct raw dflt q) = some v ∧
      (∃ m, v.Get "message" = some (V8Value.string m) ∧ m ≠ "") ∧
      v.Get "errorStack" = some (V8Value.array stack) ∧
      ∀ x ∈ stack, x = V8Value.undefined ∨
        ∃ m, x.Get "message" = some (V8Value.string m) ∧ m ≠ "" := by
  have hconv : ∀ error : MapserverError, ∃ m,
      (MapserverError.converted cat error).Get "message" = some (V8Value.string m) ∧
      m ≠ "" := by
    intro error
    refine ⟨if error.message.length ≠ 0 then error.message else cat error.code, ?_, ?_⟩
    · simp [MapserverError.converted, V8Value.Get]
    · split
      · intro h
        rename_i hl
        exact hl ((String.length_eq_zero_iff_eq_empty _).mpr h)
      · exact hcat _
  refine ⟨fun error => ?_, ?_⟩
  · obtain ⟨m, hm, hne⟩ := hconv error
    exact ⟨_, m, MapserverError.ToV8Error_Init cat s error, hm, hne⟩
  · intro raw dflt q
    obtain ⟨primary, stack, hv, hmem⟩ :=
      MapserverError.toV8Error_construct_shape cat s raw dflt q
    refine ⟨_, stack, hv, ?_, MapserverError.Get_exported_errorStack _ _ _, ?_⟩
    · rw [MapserverError.Get_exported_of_ne _ _ _ _ (by decide)]
      exact hconv primary
    · intro x hx
      rcases hmem x hx with h | ⟨r, _, h⟩
      · exact Or.inl h
      · exact Or.inr (h ▸ hconv _)

theorem categoryFor_ne_empty (code : Int) : categoryFor code ≠ "" := by
  unfold categoryFor
  split
  · decide
  · split <;> decide

/-- C16, witness: with the sample category lookup, which is never empty, the second record of
the scenario queue (empty message) is converted to a value whose message is not empty. -/
theorem C16_witness_scenario :
    (∀ code, categoryFor code ≠ "") ∧
    ∃ v m, MapserverError.ToV8Error categoryFor (MapserverError.Init Registry.start)
        (MapserverError.ofRecord scenarioSecond none 0) = some v ∧
      v.Get "message" = some (V8Value.string m) ∧ m ≠ "" :=
  ⟨categoryFor_ne_empty,
    (C16_message_never_empty categoryFor categoryFor_ne_empty Registry.start).1
      (MapserverError.ofRecord scenarioSecond none 0)⟩
